import Mathlib

/-!
# IAMP Sites Mapping Dashboard — verification of the data pipeline

Shallow embedding of the data-normalization, QC, coordinate-inference,
filter and export logic of `assets/js/app.js`.

Conventions of the embedding:
* JavaScript numbers are modelled as exact rationals (`ℚ`); float rounding and
  overflow are outside the scope of the model (all cell numbers occurring in
  the dashboard data are small and exact).
* A spreadsheet row is an association list from column name to cell value, in
  header order (JavaScript objects preserve insertion order; `Object.keys`
  returns keys in that order).
* `Value.empty` models JavaScript `null`/`undefined`; a missing key of a row
  is modelled by `rowGet` returning `none`, and `jsGet` collapses it to
  `Value.empty`, matching property access on a plain object.
* `Array.prototype.sort` is stable (ES2019); the composite
  `sort(descending by score).find(predicate)` used by the source is therefore
  modelled directly as "earliest element attaining the maximal score,
  thresholded", which is what the composite computes for the list of scored
  column keys.
-/

namespace IAMP

/-- A spreadsheet cell value as produced by the sheet decoder:
string, finite number, boolean, or null/undefined. -/
inductive Value where
  | str (s : String)
  | num (q : ℚ)
  | bool (b : Bool)
  | empty
deriving DecidableEq, Repr

/-- One row: column name to cell value, in header order. -/
abbrev Row := List (String × Value)

/-- `r[k]` as an option: `none` models a key absent from the object. -/
def rowGet (r : Row) (k : String) : Option Value :=
  (r.find? (fun p => p.1 = k)).map (·.2)

/-- `obj[k]` in the source: a missing key reads as `undefined`. -/
def jsGet (r : Row) (k : String) : Value :=
  (rowGet r k).getD Value.empty

/-- `obj[k] = v`: replace the value of an existing key in place, else append
the key (JavaScript property insertion order). -/
def rowSet (r : Row) (k : String) (v : Value) : Row :=
  if r.any (fun p => p.1 = k) then
    r.map (fun p => if p.1 = k then (k, v) else p)
  else r ++ [(k, v)]

/-! ## JavaScript string primitives

`trim` and `toLowerCase` are modelled directly over the character list (the
built-in ASCII range plus the common extra whitespace code points; the
dashboard's own strings are ASCII). -/

/-- The whitespace class of `String.prototype.trim` (ASCII part plus
NBSP/BOM). -/
def isWsChar (c : Char) : Bool :=
  c = ' ' ∨ c = '\t' ∨ c = '\n' ∨ c = '\r' ∨
  c.toNat = 11 ∨ c.toNat = 12 ∨ c.toNat = 160 ∨ c.toNat = 65279

/-- Strip leading and trailing whitespace from a character list. -/
def trimList (cs : List Char) : List Char :=
  ((cs.dropWhile isWsChar).reverse.dropWhile isWsChar).reverse

/-- `s.trim()`. -/
def jsTrim (s : String) : String :=
  String.mk (trimList s.data)

/-- ASCII lowercasing of one character. -/
def lowerChar (c : Char) : Char :=
  if 65 ≤ c.toNat ∧ c.toNat ≤ 90 then Char.ofNat (c.toNat + 32) else c

/-- `s.toLowerCase()`. -/
def jsLower (s : String) : String :=
  String.mk (s.data.map lowerChar)

/-! ## Decimal rendering of numbers (`String(number)`)

Only the following facts about number rendering are relied on by the
theorems: integers render as their decimal digits and a rendered number is
never the empty string.  The renderer below produces the exact JavaScript
output for integers and for terminating decimals. -/

/-- Decimal digits of a natural number (e.g. `120 ↦ "120"`). -/
def natRepr (n : ℕ) : String := toString n

/-- Strip trailing zeros of a fraction-digit string. -/
def stripZeros (cs : List Char) : List Char :=
  (cs.reverse.dropWhile (fun c => c = '0')).reverse

/-- Render `q` with `k` fraction digits (exact when `q.den ∣ 10 ^ k`). -/
def decRepr (q : ℚ) (k : ℕ) : String :=
  let sign := if q < 0 then "-" else ""
  let scaled : ℕ := (q.num.natAbs * 10 ^ k) / q.den
  let ip := scaled / 10 ^ k
  let fp := scaled % 10 ^ k
  let fracDigits :=
    stripZeros ((List.replicate (k - (natRepr fp).length) '0') ++ (natRepr fp).data)
  if fracDigits.isEmpty then sign ++ natRepr ip
  else sign ++ natRepr ip ++ "." ++ String.mk fracDigits

/-- `String(q)` for a finite number.  Integers print their digits; a
terminating decimal prints with the dot; (unreachable for JavaScript
floats) other rationals fall back to integer division rendering. -/
def numToString (q : ℚ) : String :=
  if q.den = 1 then toString q.num
  else match (List.range 1200).find? (fun k => (10 ^ k) % q.den = 0) with
    | some k => decRepr q k
    | none => decRepr q 30

/-- JavaScript `String(v)` for a cell value. -/
def jsString (v : Value) : String :=
  match v with
  | .str s => s
  | .num q => numToString q
  | .bool b => if b then "true" else "false"
  | .empty => "undefined"

/-- Source `normText`: null/undefined give `""`, anything else stringifies
and trims. -/
def normText (v : Value) : String :=
  match v with
  | .empty => ""
  | v => jsTrim (jsString v)

/-! ## `Number(string)` — JavaScript string-to-number coercion

Restricted to the constructs reachable from the dashboard: decimal literals
with optional sign, fraction and exponent, radix prefixes, and the quirk
`Number("") = 0`.  `none` stands for a non-finite result (`NaN` or
`±Infinity`), which every caller in the source collapses to the same
outcome. -/

/-- Split a leading run of ASCII digits. -/
def takeDigs : List Char → List Char × List Char
  | [] => ([], [])
  | c :: cs =>
    if c.isDigit then
      let (d, r) := takeDigs cs
      (c :: d, r)
    else ([], c :: cs)

/-- Split a leading run of non-digits (regex `\D*`). -/
def takeNonDigs : List Char → List Char × List Char
  | [] => ([], [])
  | c :: cs =>
    if c.isDigit then ([], c :: cs)
    else
      let (d, r) := takeNonDigs cs
      (c :: d, r)

/-- Value of a digit string. -/
def digsVal (ds : List Char) : ℕ :=
  ds.foldl (fun a c => 10 * a + (c.toNat - 48)) 0

/-- Value of `ip.fp` as a rational. -/
def numOfParts (ip fp : List Char) : ℚ :=
  (digsVal ip : ℚ) + mkRat (digsVal fp) (10 ^ fp.length)

/-- Digit value in radix ≤ 36, or `none`. -/
def radixDigit (base : ℕ) (c : Char) : Option ℕ :=
  let v :=
    if c.isDigit then some (c.toNat - 48)
    else if 65 ≤ c.toNat ∧ c.toNat ≤ 90 then some (c.toNat - 55)
    else if 97 ≤ c.toNat ∧ c.toNat ≤ 122 then some (c.toNat - 87)
    else none
  match v with
  | some n => if n < base then some n else none
  | none => none

/-- Parse a nonempty all-valid digit string in the given radix. -/
def parseRadix (base : ℕ) (cs : List Char) : Option ℚ :=
  match cs with
  | [] => none
  | _ =>
    cs.foldl (fun acc c =>
      match acc, radixDigit base c with
      | some a, some d => some (base * a + d)
      | _, _ => none) (some (0 : ℕ)) |>.map (fun n => (n : ℚ))

/-- Unsigned decimal literal with optional fraction and exponent; the whole
input must be consumed. -/
def parseDecLit (cs : List Char) : Option ℚ :=
  if cs = "Infinity".data then none
  else
    let (ds, r1) := takeDigs cs
    let (fp, r2) :=
      match r1 with
      | '.' :: r => let (fs, r3) := takeDigs r; (some fs, r3)
      | _ => (none, r1)
    let frac := fp.getD []
    if ds = [] ∧ frac = [] ∧ fp.isSome then none
    else if ds = [] ∧ fp.isNone then none
    else
      let mant := numOfParts ds frac
      match r2 with
      | [] => some mant
      | e :: r3 =>
        if e = 'e' ∨ e = 'E' then
          let (neg, r4) :=
            match r3 with
            | '+' :: r => (false, r)
            | '-' :: r => (true, r)
            | r => (false, r)
          let (eds, r5) := takeDigs r4
          if eds = [] ∨ r5 ≠ [] then none
          else if neg then some (mant * mkRat 1 (10 ^ digsVal eds))
          else some (mant * 10 ^ digsVal eds)
        else none

/-- Signed decimal literal. -/
def parseSignedDec (cs : List Char) : Option ℚ :=
  match cs with
  | '+' :: rest => parseDecLit rest
  | '-' :: rest => (parseDecLit rest).map Neg.neg
  | _ => parseDecLit cs

/-- `Number(s)` on a trimmed string. -/
def parseNumLiteral (cs : List Char) : Option ℚ :=
  match cs with
  | '0' :: x :: rest =>
    if x = 'x' ∨ x = 'X' then parseRadix 16 rest
    else if x = 'o' ∨ x = 'O' then parseRadix 8 rest
    else if x = 'b' ∨ x = 'B' then parseRadix 2 rest
    else parseSignedDec ('0' :: x :: rest)
  | _ => parseSignedDec cs

/-- `Number(s)` for a string; `none` is a non-finite result. -/
def jsStringToNum (s : String) : Option ℚ :=
  let t := jsTrim s
  if t = "" then some 0 else parseNumLiteral t.data

/-- Source `toNum`: empty/null/undefined give 0, else `Number(v)`, with a
non-finite result collapsed to 0. -/
def toNum (v : Value) : ℚ :=
  match v with
  | .empty => 0
  | .str "" => 0
  | .str s => (jsStringToNum s).getD 0
  | .num q => q
  | .bool b => if b then 1 else 0

/-- Source `truthy`: literal `true`, the number 1, or the trimmed text
`"yes"`/`"true"`/`"1"` in any letter case. -/
def truthy (v : Value) : Bool :=
  if v = .bool true then true
  else if v = .num 1 then true
  else
    let s := jsLower (normText v)
    s = "yes" ∨ s = "true" ∨ s = "1"

/-! ## `parseCoordinate`

The source first searches the trimmed text for the regular expression

  `(\d+(?:\.\d+)?)\D+(\d+(?:\.\d+)?)\D+(\d+(?:\.\d+)?)(?:\D*([NSEW]))?` (/i)

(degrees-minutes-seconds).  The matcher below reproduces exact
leftmost-greedy backtracking semantics for this one pattern:

* a `\d+` never benefits from giving digits back (the character after a
  shortened run is a digit, on which both possible continuations `\.`
  and `\D` fail), so each number takes its maximal digit run;
* each optional fraction `(?:\.\d+)?` is tried present first, absent on
  failure of the rest of the pattern — the only genuine choice points;
* each separator `\D+` likewise has exactly one viable length, the maximal
  non-digit run (a shorter run leaves a non-digit where `\d` is required);
* the trailing group `(?:\D*([NSEW]))?` captures, greedily, the last
  `[NSEWnsew]` letter inside the maximal non-digit run after the third
  number, and is skipped when there is none. -/

/-- Hemisphere letters (`[NSEW]` with the `i` flag). -/
def isNSEW (c : Char) : Bool :=
  c = 'N' ∨ c = 'S' ∨ c = 'E' ∨ c = 'W' ∨
  c = 'n' ∨ c = 's' ∨ c = 'e' ∨ c = 'w'

/-- Last hemisphere letter of a character run, if any. -/
def lastNSEW (run : List Char) : Option Char :=
  run.foldl (fun acc c => if isNSEW c then some c else acc) none

/-- `\D+`: the maximal nonempty non-digit run, or failure. -/
def sepAt (cs : List Char) : Option (List Char) :=
  let (nds, r) := takeNonDigs cs
  if nds = [] then none else some r

/-- Third number of the pattern: maximal digits with greedy fraction. -/
def n3At (cs : List Char) : Option (ℚ × List Char) :=
  let (ds, r1) := takeDigs cs
  if ds = [] then none
  else
    match r1 with
    | '.' :: r2 =>
      let (fs, r3) := takeDigs r2
      if fs = [] then some (numOfParts ds [], r1) else some (numOfParts ds fs, r3)
    | _ => some (numOfParts ds [], r1)

/-- Rest of the pattern after degrees and minutes: second separator, the
seconds number, and the optional hemisphere, producing the DMS value. -/
def contAfterN2 (deg minu : ℚ) (r : List Char) : Option ℚ :=
  match sepAt r with
  | none => none
  | some r2 =>
    match n3At r2 with
    | none => none
    | some (sec, r3) =>
      let hemi := lastNSEW (takeNonDigs r3).1
      let val := deg + minu * mkRat 1 60 + sec * mkRat 1 3600
      some (match hemi with
        | some c => if c = 'S' ∨ c = 's' ∨ c = 'W' ∨ c = 'w' then -val else val
        | none => val)

/-- Minutes number with fraction-present-first backtracking. -/
def tryN2 (deg : ℚ) (cs : List Char) : Option ℚ :=
  let (ds, r1) := takeDigs cs
  if ds = [] then none
  else
    let withFrac : Option ℚ :=
      match r1 with
      | '.' :: r2 =>
        let (fs, r3) := takeDigs r2
        if fs = [] then none else contAfterN2 deg (numOfParts ds fs) r3
      | _ => none
    match withFrac with
    | some out => some out
    | none => contAfterN2 deg (numOfParts ds []) r1

/-- Rest of the pattern after the degrees number. -/
def contAfterN1 (deg : ℚ) (r : List Char) : Option ℚ :=
  match sepAt r with
  | none => none
  | some r2 => tryN2 deg r2

/-- Attempt a match of the whole pattern at this position. -/
def tryN1 (cs : List Char) : Option ℚ :=
  let (ds, r1) := takeDigs cs
  if ds = [] then none
  else
    let withFrac : Option ℚ :=
      match r1 with
      | '.' :: r2 =>
        let (fs, r3) := takeDigs r2
        if fs = [] then none else contAfterN1 (numOfParts ds fs) r3
      | _ => none
    match withFrac with
    | some out => some out
    | none => contAfterN1 (numOfParts ds []) r1

/-- `raw.match(dms)`: leftmost match over all start positions. -/
def dmsSearch : List Char → Option ℚ
  | [] => none
  | c :: cs =>
    match tryN1 (c :: cs) with
    | some v => some v
    | none => dmsSearch cs

/-- Loose-decimal cleaning, step 3: drop every `+` that is not the final
character (`replace(/(\+)(?=.)/g, "")`). -/
def dropInnerPlus : List Char → List Char
  | [] => []
  | [c] => [c]
  | c :: rest => if c = '+' then dropInnerPlus rest else c :: dropInnerPlus rest

/-- Loose-decimal cleaning: commas to dots, keep only `[0-9.+-]`, drop
non-final `+`. -/
def cleanLoose (cs : List Char) : List Char :=
  dropInnerPlus (((cs.map (fun c => if c = ',' then '.' else c))).filter
    (fun c => c.isDigit ∨ c = '.' ∨ c = '+' ∨ c = '-'))

/-- Source `parseCoordinate`: `NaN` is modelled as `none`.  Null, undefined
and `""` give `NaN`; a (finite) number is returned as is; any other value is
stringified and trimmed, searched for a DMS match (with `S`/`W` negating),
and otherwise parsed as a loose decimal. -/
def parseCoordinate (v : Value) : Option ℚ :=
  match v with
  | .empty => none
  | .num q => some q
  | v =>
    let raw := jsTrim (jsString v)
    if raw = "" then none
    else
      match dmsSearch raw.data with
      | some q => some q
      | none => jsStringToNum (String.mk (cleanLoose raw.data))

/-! ## Column scoring and latitude/longitude inference -/

/-- Source `scoreKeyInRange`: over the first `min(1200, rows.length)` rows,
count values of column `key` that parse (`valid`) and those that also lie in
`[lo, hi]` (`ok`); the score is `ok / valid`, or `0` when nothing parsed. -/
def scoreKeyInRange (rows : List Row) (key : String) (lo hi : ℚ) : ℚ :=
  let (ok, valid) := (rows.take 1200).foldl
    (fun (p : ℕ × ℕ) r =>
      match parseCoordinate (jsGet r key) with
      | none => p
      | some v => (if lo ≤ v ∧ v ≤ hi then p.1 + 1 else p.1, p.2 + 1))
    (0, 0)
  if valid = 0 then 0 else mkRat ok valid

/-- Leading-character test used by `listHasSub`. -/
def listStarts : List Char → List Char → Bool
  | [], _ => true
  | _ :: _, [] => false
  | p :: ps, h :: hs => p = h && listStarts ps hs

/-- Does `p` hold of some suffix of the list? -/
def anySuffix (p : List Char → Bool) : List Char → Bool
  | [] => p []
  | c :: cs => p (c :: cs) || anySuffix p cs

/-- Substring occurrence test. -/
def listHasSub (pat hay : List Char) : Bool :=
  anySuffix (listStarts pat) hay

/-- Case-insensitive occurrence of an (already lowercase) pattern. -/
def ciContains (hay pat : String) : Bool :=
  listHasSub pat.data (jsLower hay).data

/-- `/p\s*code/i.test(k) || /pcode/i.test(k)` (the second test is the
zero-whitespace case of the first): a `p` followed by optional whitespace
and `code`, anywhere in the key, in any letter case. -/
def pcodeFuzzyAt : List Char → Bool
  | [] => false
  | c :: rest =>
    (c = 'p' ∨ c = 'P') && listStarts "code".data ((rest.dropWhile isWsChar).map lowerChar)

/-- Source `inferPcodeKey`. -/
def inferPcodeKey (keys : List String) : String :=
  match keys.find? (fun k => jsLower (jsTrim k) = "pcode") with
  | some k => k
  | none =>
    match keys.find? (fun k => anySuffix pcodeFuzzyAt k.data) with
    | some k => k
    | none => "PCode"

/-- A column key with its two band scores. -/
structure ScoredKey where
  key : String
  latScore : ℚ
  lngScore : ℚ
deriving DecidableEq, Repr

/-- Earliest element attaining the maximal value of `f`: the result of the
source's stable descending sort followed by taking the first element. -/
def bestKeyBy {α : Type} (f : α → ℚ) (l : List α) : Option α :=
  l.foldl (fun acc x =>
    match acc with
    | none => some x
    | some a => if f a < f x then some x else some a) none

/-- Threshold the earliest maximum: the source's
`sort(descending).find(score ≥ thr)`. -/
def bestAbove {α : Type} (thr : ℚ) (f : α → ℚ) (l : List α) : Option α :=
  match bestKeyBy f l with
  | some a => if thr ≤ f a then some a else none
  | none => none

/-- `scored.find(x => x.key === k)?.[prop] || 0` for a named candidate. -/
def namedScore (f : ScoredKey → ℚ) (scored : List ScoredKey) (k : String) : ℚ :=
  match scored.find? (fun x => x.key = k) with
  | some x => f x
  | none => 0

/-- Source `pickBestNamed`: rank the name-matched candidates by score
(stable descending sort) and keep the first one iff its score is ≥ 0.25. -/
def pickBestNamed (f : ScoredKey → ℚ) (scored : List ScoredKey) (arr : List String) :
    Option String :=
  match bestKeyBy (namedScore f scored) arr with
  | some a => if mkRat 25 100 ≤ namedScore f scored a then some a else none
  | none => none

/-- JavaScript `a || b` on an optional string: the empty string is falsy. -/
def jsOrStr (a b : Option String) : Option String :=
  match a with
  | some s => if s = "" then b else some s
  | none => b

/-- Result of `inferLatLngKeys`. -/
structure InferResult where
  pcodeKey : String
  latKey : Option String
  lngKey : Option String
deriving DecidableEq, Repr

/-- Name-matched latitude candidates: `/lat|latitude/i` (i.e. contains
`lat`) but not `/latrine/i`. -/
def nameLatKeys (keys : List String) : List String :=
  keys.filter (fun k => ciContains k "lat" && !ciContains k "latrine")

/-- Name-matched longitude candidates: `/lon|lng|longitude/i` (i.e.
contains `lon` or `lng`). -/
def nameLngKeys (keys : List String) : List String :=
  keys.filter (fun k => ciContains k "lon" || ciContains k "lng")

/-- Band scores of every column of the first row. -/
def scoredKeys (rows : List Row) (keys : List String) : List ScoredKey :=
  keys.map (fun k =>
    ⟨k, scoreKeyInRange rows k 32 (mkRat 359 10), scoreKeyInRange rows k 34 (mkRat 379 10)⟩)

/-- Source `inferLatLngKeys`.  `bestLng` excludes the key of `bestLat` (the
best statistically scored latitude candidate) inside the `find` predicate;
with unique column keys and a stable sort that equals taking the earliest
maximum of the list with that key filtered out. -/
def inferLatLngKeys (rows : List Row) : InferResult :=
  match rows with
  | [] => ⟨"PCode", none, none⟩
  | r0 :: _ =>
    let keys := r0.map (·.1)
    let pcodeKey := inferPcodeKey keys
    let nameLat := nameLatKeys keys
    let nameLng := nameLngKeys keys
    let scored := scoredKeys rows keys
    let bestLat := bestAbove (mkRat 65 100) (·.latScore) scored
    let bestLng := bestAbove (mkRat 65 100) (·.lngScore)
      (scored.filter (fun x =>
        match bestLat with
        | some a => x.key ≠ a.key
        | none => true))
    let latKey := jsOrStr (pickBestNamed (·.latScore) scored nameLat)
      (jsOrStr (bestLat.map (·.key)) none)
    let lngKey := jsOrStr (pickBestNamed (·.lngScore) scored nameLng)
      (jsOrStr (bestLng.map (·.key)) none)
    ⟨pcodeKey, latKey, lngKey⟩

/-! ## Coordinate index -/

/-- An inferred coordinate pair. -/
structure LatLng where
  lat : ℚ
  lng : ℚ
deriving DecidableEq, Repr

/-- `Map.set`: overwrite in place, else append (JavaScript `Map` keeps the
original insertion position on overwrite). -/
def mapSet (m : List (String × LatLng)) (k : String) (v : LatLng) :
    List (String × LatLng) :=
  if m.any (fun p => p.1 = k) then
    m.map (fun p => if p.1 = k then (k, v) else p)
  else m ++ [(k, v)]

/-- `Map.get` as an option. -/
def mapLookup (m : List (String × LatLng)) (k : String) : Option LatLng :=
  (m.find? (fun p => p.1 = k)).map (·.2)

/-- `String(r?.[pcodeKey] ?? r?.["PCode"] ?? "").trim()`: the stored value
under the inferred key, else (when missing or null) under `"PCode"`, else
`""`; stringified and trimmed. -/
def pcodeOf (r : Row) (pk : String) : String :=
  let pick : Option Value → Option Value := fun o =>
    match o with
    | some .empty => none
    | o => o
  let v :=
    match pick (rowGet r pk) with
    | some v => v
    | none =>
      match pick (rowGet r "PCode") with
      | some v => v
      | none => .str ""
  jsTrim (jsString v)

/-- Result of `buildCoordsMapFromRows`: the index, the number of `set`
calls, the inferred keys and the total row count. -/
structure CoordsResult where
  mp : List (String × LatLng)
  mapped : ℕ
  meta : InferResult
  total : ℕ
deriving Repr

/-- One loop step of `buildCoordsMapFromRows`. -/
def coordsStep (pk lk gk : String) (acc : List (String × LatLng) × ℕ) (r : Row) :
    List (String × LatLng) × ℕ :=
  let p := pcodeOf r pk
  if p = "" then acc
  else
    match parseCoordinate (jsGet r lk), parseCoordinate (jsGet r gk) with
    | some lat, some lng => (mapSet acc.1 p ⟨lat, lng⟩, acc.2 + 1)
    | _, _ => acc

/-- Source `buildCoordsMapFromRows`: an empty index when either axis is
unresolved, else one pass over all rows, skipping rows with a blank
identifier or a coordinate that does not parse to a finite number. -/
def buildCoordsMapFromRows (rows : List Row) : CoordsResult :=
  match (inferLatLngKeys rows).latKey, (inferLatLngKeys rows).lngKey with
  | some lk, some gk =>
    ⟨(rows.foldl (coordsStep (inferLatLngKeys rows).pcodeKey lk gk) ([], 0)).1,
     (rows.foldl (coordsStep (inferLatLngKeys rows).pcodeKey lk gk) ([], 0)).2,
     inferLatLngKeys rows, rows.length⟩
  | _, _ => ⟨[], 0, inferLatLngKeys rows, rows.length⟩

/-! ## QC rules and record normalization -/

/-- One declarative QC rule: flag column, display label, remediation hint. -/
structure QCRule where
  col : String
  label : String
  help : String
deriving DecidableEq, Repr

/-- The fixed rule list (`QC_RULES`), in definition order. -/
def QC_RULES : List QCRule := [
  ⟨"QC - Missing assessment date",
   "Missing assessment date (status filled but date blank)",
   "Fill Date of phone assessment when Phone call status is set."⟩,
  ⟨"QC - Current phone length",
   "Current Shawish phone length not 8 digits",
   "Fix phone numbers (often missing leading 0) or confirm number is correct."⟩,
  ⟨"QC - Phone status/details mismatch",
   "Phone call status/details mismatch or invalid status value",
   "Ensure status is valid; if status is not Answer, No response details should be filled."⟩,
  ⟨"QC - Living status/new focal point mismatch",
   "Living status/new focal point mismatch or invalid value",
   "If living=No, new focal point name & phone must be filled. If living=Yes, new focal point fields should be blank."⟩,
  ⟨"QC - New focal point missing assessment date",
   "New focal point: status filled but assessment date blank",
   "Fill Date of phone assessment with New Focal point when New FP status is set."⟩,
  ⟨"QC - New FP status/details mismatch",
   "New focal point: status/details mismatch or invalid status value",
   "Ensure New FP status is valid; if status is not Answer, No response details should be filled."⟩,
  ⟨"QC - Record status mismatch",
   "Record status mismatch or invalid value",
   "Record status should be filled when phone call status is filled (Finish/Need Follow-up)."⟩,
  ⟨"QC - Totals mismatch",
   "Totals mismatch (structures/HH/IND vs components)",
   "Check totals (structures/HH/IND) match sum of components (Tents/Shelters/Prefab/etc)."⟩,
  ⟨"QC - HH size outlier (>10 ind/hh or ind<hh)",
   "Household size outlier (>10 ind/HH or ind < HH)",
   "Review Total households vs Total individuals for possible data entry errors."⟩,
  ⟨"QC - Latrines missing (HH>0 & latrines 0/blank)",
   "Latrines missing (HH>0 but latrines = 0/blank)",
   "Fill Number of Latrines when households exist (HH>0)."⟩,
  ⟨"QC - Latrines > HH",
   "Latrines greater than households",
   "Review latrine count relative to households."⟩,
  ⟨"QC - High population (>500 ind)",
   "High population outlier (>500 individuals)",
   "Confirm Total individuals — unusually high compared with most sites."⟩,
  ⟨"QC - Invalid Site Status",
   "Invalid Site Status",
   "Site Status should be one of: Active / Inactive / Fully Demolished."⟩,
  ⟨"QC - Invalid PCode format",
   "Invalid PCode format",
   "PCode should follow #####-##-###."⟩]

/-- The fixed numeric-field list (`NUM_FIELDS`). -/
def NUM_FIELDS : List String := [
  "A- Number of Tents",
  "A1- Number of Households in Tents",
  "A2- Number of Individuals in Tents",
  "B- Number of Self-built Structures with Non-Concrete Roof",
  "B1- Number of Households in Self-built Structures with Non-Concrete Roof",
  "B2- Number of Individuals in Self-built Structures with Non-Concrete Roof",
  "C- Number of Prefab Structure",
  "C1- Number of Households in Prefab Structure",
  "C2- Number of Individuals in Prefab Structure",
  "D- Number of Self-built Structures with Concrete Roof",
  "D1- Number of Households in Self-built Structures with Concrete Roof",
  "D2- Number of Individuals in Self-built Structures with Concrete Roof",
  "Total number of Structures",
  "Total number of Households",
  "Total number of Individuals",
  "Number of Latrines",
  "E1- Number of Households came from Syria",
  "E2- Number of Individuals came from Syria",
  "F1- Number of Households came from Lebanon",
  "F2- Number of Individuals came from Lebanon",
  "G1- Number of Households left to Syria",
  "G2- Number of Individuals left to Syria",
  "QC - Issue count"]

/-- `for (const f of NUM_FIELDS) obj[f] = toNum(obj[f])`. -/
def coerceNumerics (r : Row) : Row :=
  NUM_FIELDS.foldl (fun acc f => rowSet acc f (.num (toNum (jsGet acc f)))) r

/-- A normalized record: the coerced row plus every derived `__` field. -/
structure NormalizedRecord where
  row : Row
  assessed : Bool
  siteStatus : String
  district : String
  cadaster : String
  phoneStatus : String
  qcAny : String
  qcIssueCount : ℚ
  qcFlags : List String
  search : String
deriving DecidableEq, Repr

/-- The per-row body of `parseWorkbook`: numeric coercion followed by the
derivation of every `__` field, exactly in source order. -/
def normalizeRow (r : Row) : NormalizedRecord :=
  let obj := coerceNumerics r
  let phoneStatus := normText (jsGet obj "Phone call status")
  let siteStatus := normText (jsGet obj "Site Status")
  let district := normText (jsGet obj "District")
  let cadaster := normText (jsGet obj "Cadaster")
  let assessed := phoneStatus ≠ ""
  let siteStatusDisplay :=
    if siteStatus ≠ "" then siteStatus
    else if assessed then "Not recorded" else "Not assessed"
  let qcAny0 := normText (jsGet obj "QC - Any issue")
  let qcAny := if qcAny0 = "" then "No" else qcAny0
  let qcIssueCount := toNum (jsGet obj "QC - Issue count")
  let qcFlags := QC_RULES.foldl
    (fun acc rule => if truthy (jsGet obj rule.col) then acc ++ [rule.label] else acc) []
  { row := obj
    assessed := assessed
    siteStatus := siteStatusDisplay
    district := if district = "" then "—" else district
    cadaster := if cadaster = "" then "—" else cadaster
    phoneStatus := if assessed then phoneStatus else "Not assessed"
    qcAny := if qcAny = "Yes" then "Yes" else "No"
    qcIssueCount := qcIssueCount
    qcFlags := qcFlags
    search := jsLower (String.intercalate " "
      [normText (jsGet obj "PCode"), normText (jsGet obj "PCode Name"),
       normText (jsGet obj "Local Name"), district, cadaster]) }

/-! ## Filter engine -/

/-- The filter criteria value object. -/
structure Filters where
  q : String
  district : String
  cadaster : String
  siteStatus : String
  phoneStatus : String
  qc : String
deriving DecidableEq, Repr

/-- Defaults: every selector `"All"`, empty text. -/
def defaultFilters : Filters :=
  ⟨"", "All", "All", "All", "All", "All"⟩

/-- The per-record predicate of `applyFilters`: the record is kept iff
none of the source's early-return conditions fires. -/
def passes (f : Filters) (r : NormalizedRecord) : Bool :=
  let q := jsLower (jsTrim f.q)
  !(decide (f.district ≠ "All" ∧ r.district ≠ f.district)) &&
  !(decide (f.cadaster ≠ "All" ∧ r.cadaster ≠ f.cadaster)) &&
  !(decide (f.siteStatus ≠ "All" ∧ r.siteStatus ≠ f.siteStatus)) &&
  !(decide (f.phoneStatus ≠ "All" ∧ r.phoneStatus ≠ f.phoneStatus)) &&
  !(decide (f.qc = "Any issue" ∧ r.qcAny ≠ "Yes")) &&
  !(decide (f.qc = "No issues" ∧ r.qcAny ≠ "No")) &&
  !(decide (q ≠ "" ∧ ¬ listHasSub q.data r.search.data = true))

/-- Source `applyFilters`. -/
def applyFilters (f : Filters) (rows : List NormalizedRecord) : List NormalizedRecord :=
  rows.filter (passes f)

/-! ## CSV export -/

/-- The `esc` helper of `toCSV`: a field containing a double quote, newline
or comma is wrapped in double quotes with internal double quotes doubled. -/
def escCsv (s : String) : String :=
  if s.data.any (fun c => c = '"' ∨ c = '\n' ∨ c = ',') then
    "\"" ++ String.mk (s.data.flatMap (fun c => if c = '"' then ['"', '"'] else [c])) ++ "\""
  else s

/-- `esc` applied to `r[c]`: null/undefined/missing give `""`. -/
def escField (o : Option Value) : String :=
  match o with
  | none => ""
  | some .empty => ""
  | some v => escCsv (jsString v)

/-- Source `toCSV`: a header line followed by one line per row, fields
joined by commas, lines by newlines. -/
def toCSV (rows : List Row) (columns : List String) : String :=
  let header := String.intercalate "," (columns.map escCsv)
  let lines := rows.map (fun r =>
    String.intercalate "," (columns.map (fun c => escField (rowGet r c))))
  String.intercalate "\n" (header :: lines)

/-! ## Shareable-link query codec

`encodeFiltersToQuery` builds a `URLSearchParams`, setting one entry per
non-default criterion, and serializes it; `applyQueryToFilters` reads the
six parameters back, writes the truthy ones into the (default-initialised)
controls and re-reads the criteria.  The `application/x-www-form-urlencoded`
serializer and parser of the platform are modelled in full: UTF-8 bytes,
`+` for space, `%XX` for every byte outside the unreserved set.  The
embedding abstracts the select controls as accepting any assigned string
(their option lists are data-dependent UI state). -/

/-- UTF-8 bytes of a unicode scalar value. -/
def utf8Bytes (n : ℕ) : List ℕ :=
  if n < 0x80 then [n]
  else if n < 0x800 then [0xC0 + n / 64, 0x80 + n % 64]
  else if n < 0x10000 then
    [0xE0 + n / 4096, 0x80 + n / 64 % 64, 0x80 + n % 64]
  else
    [0xF0 + n / 262144, 0x80 + n / 4096 % 64, 0x80 + n / 64 % 64, 0x80 + n % 64]

/-- Uppercase hexadecimal digit. -/
def hexDigitChar (n : ℕ) : Char :=
  if n < 10 then Char.ofNat (48 + n) else Char.ofNat (55 + n)

/-- `%XX` escape of one byte. -/
def pctByte (b : ℕ) : List Char :=
  ['%', hexDigitChar (b / 16), hexDigitChar (b % 16)]

/-- Bytes kept verbatim by the form-urlencoded serializer:
alphanumeric and `*`, `-`, `.`, `_`. -/
def formSafe (c : Char) : Bool :=
  c.isAlphanum ∨ c = '*' ∨ c = '-' ∨ c = '.' ∨ c = '_'

/-- Serialize one character: safe characters verbatim, space as `+`, the
UTF-8 bytes of anything else percent-escaped. -/
def encChar (c : Char) : List Char :=
  if formSafe c then [c]
  else if c = ' ' then ['+']
  else (utf8Bytes c.toNat).flatMap pctByte

/-- Form-urlencode a component. -/
def formEncode (s : String) : String :=
  String.mk (s.data.flatMap encChar)

/-- Value of a hexadecimal digit character, if any. -/
def hexVal (c : Char) : Option ℕ :=
  if c.isDigit then some (c.toNat - 48)
  else if 65 ≤ c.toNat ∧ c.toNat ≤ 70 then some (c.toNat - 55)
  else if 97 ≤ c.toNat ∧ c.toNat ≤ 102 then some (c.toNat - 87)
  else none

/-- Decode a form-urlencoded component to its byte sequence: `+` is a
space, `%` with two hex digits is a byte, anything else contributes its own
UTF-8 bytes. -/
def pctDecodeBytes : List Char → List ℕ
  | [] => []
  | c :: rest =>
    if c = '+' then 32 :: pctDecodeBytes rest
    else if c = '%' then
      match rest with
      | [] => [37]
      | [h1] => 37 :: pctDecodeBytes [h1]
      | h1 :: h2 :: rest2 =>
        match hexVal h1, hexVal h2 with
        | some a, some b => (16 * a + b) :: pctDecodeBytes rest2
        | _, _ => 37 :: pctDecodeBytes (h1 :: h2 :: rest2)
    else utf8Bytes c.toNat ++ pctDecodeBytes rest

/-- UTF-8 decoding, restricted to well-formed input (the serializer only
produces well-formed sequences; error replacement is omitted). -/
def utf8Decode : List ℕ → List Char
  | [] => []
  | b :: rest =>
    if b < 0x80 then Char.ofNat b :: utf8Decode rest
    else
      match rest with
      | [] => []
      | b1 :: rest1 =>
        if b < 0xE0 then Char.ofNat ((b % 32) * 64 + b1 % 64) :: utf8Decode rest1
        else
          match rest1 with
          | [] => []
          | b2 :: rest2 =>
            if b < 0xF0 then
              Char.ofNat ((b % 16) * 4096 + (b1 % 64) * 64 + b2 % 64) :: utf8Decode rest2
            else
              match rest2 with
              | [] => []
              | b3 :: rest3 =>
                Char.ofNat ((b % 8) * 262144 + (b1 % 64) * 4096 + (b2 % 64) * 64 + b3 % 64)
                  :: utf8Decode rest3

/-- Decode a form-urlencoded component. -/
def formDecode (cs : List Char) : String :=
  String.mk (utf8Decode (pctDecodeBytes cs))

/-- Join the serialized pairs with `&`. -/
def joinAmp : List (List Char) → List Char
  | [] => []
  | [s] => s
  | s :: rest => s ++ '&' :: joinAmp rest

/-- `URLSearchParams.toString()` over a parameter list. -/
def serializeQuery (ps : List (String × String)) : String :=
  String.mk (joinAmp (ps.map (fun p => (formEncode p.1).data ++ '=' :: (formEncode p.2).data)))

/-- Split on `&`. -/
def splitAmp : List Char → List (List Char)
  | [] => [[]]
  | c :: rest =>
    if c = '&' then [] :: splitAmp rest
    else
      match splitAmp rest with
      | s :: ss => (c :: s) :: ss
      | [] => [[c]]

/-- Split a segment at its first `=` (key, value). -/
def splitEq : List Char → List Char × List Char
  | [] => ([], [])
  | c :: rest =>
    if c = '=' then ([], rest)
    else
      let (k, v) := splitEq rest
      (c :: k, v)

/-- `new URLSearchParams(string)`: split on `&`, drop empty segments,
split each at the first `=`, decode both sides. -/
def parseQuery (s : String) : List (String × String) :=
  (splitAmp s.data).filterMap (fun seg =>
    if seg = [] then none
    else
      let (k, v) := splitEq seg
      some (formDecode k, formDecode v))

/-- First value for a key (`URLSearchParams.get`), `none` for `null`. -/
def paramsGet (ps : List (String × String)) (k : String) : Option String :=
  (ps.find? (fun p => p.1 = k)).map (·.2)

/-- Source `encodeFiltersToQuery`: one parameter per non-default
criterion, in source order. -/
def encodeFiltersToQuery (f : Filters) : List (String × String) :=
  (if f.q ≠ "" then [("q", f.q)] else []) ++
  (if f.district ≠ "All" then [("district", f.district)] else []) ++
  (if f.cadaster ≠ "All" then [("cadaster", f.cadaster)] else []) ++
  (if f.siteStatus ≠ "All" then [("siteStatus", f.siteStatus)] else []) ++
  (if f.phoneStatus ≠ "All" then [("phoneStatus", f.phoneStatus)] else []) ++
  (if f.qc ≠ "All" then [("qc", f.qc)] else [])

/-- JavaScript truthiness of `params.get(k)`: `null` and `""` are falsy. -/
def truthyParam (ps : List (String × String)) (k : String) : Option String :=
  match paramsGet ps k with
  | some s => if s = "" then none else some s
  | none => none

/-- Source `applyQueryToFilters` followed by `readFiltersFromUI`: controls
start at their defaults, each truthy parameter is written into its control,
then the criteria are re-read (`normText` on the text box, `value || "All"`
on each select). -/
def applyQueryToFilters (ps : List (String × String)) : Filters :=
  let uiQ := (truthyParam ps "q").getD ""
  let uiDistrict := (truthyParam ps "district").getD "All"
  let uiCadaster := (truthyParam ps "cadaster").getD "All"
  let uiSiteStatus := (truthyParam ps "siteStatus").getD "All"
  let uiPhoneStatus := (truthyParam ps "phoneStatus").getD "All"
  let uiQc := (truthyParam ps "qc").getD "All"
  { q := jsTrim uiQ
    district := if uiDistrict = "" then "All" else uiDistrict
    cadaster := if uiCadaster = "" then "All" else uiCadaster
    siteStatus := if uiSiteStatus = "" then "All" else uiSiteStatus
    phoneStatus := if uiPhoneStatus = "" then "All" else uiPhoneStatus
    qc := if uiQc = "" then "All" else uiQc }

/-! ## Specification-side definitions

Definitions in this section are written from the specification text, to be
compared against the source-derived functions above. -/

/-- Standard CSV unquoting of the text following an opening double quote:
a doubled quote is a literal quote, a single quote closes the field. -/
def csvUnquote : List Char → List Char
  | [] => []
  | c :: rest =>
    if c = '"' then
      match rest with
      | c2 :: rest2 => if c2 = '"' then '"' :: csvUnquote rest2 else []
      | [] => []
    else c :: csvUnquote rest

/-- Standard CSV parsing of one serialized field: a field starting with a
double quote is unquoted, any other field is itself. -/
def csvParseField (s : String) : String :=
  match s.data with
  | c :: rest => if c = '"' then String.mk (csvUnquote rest) else s
  | [] => s

/-- The filter predicate of the specification: each discrete criterion
matches verbatim or is `"All"`; `"Any issue"` requires `qcAny = "Yes"` and
`"No issues"` requires `qcAny = "No"`; the trimmed case-folded query is
empty or a substring of the search blob.  All conditions are conjoined. -/
def specPasses (f : Filters) (r : NormalizedRecord) : Prop :=
  (f.district = "All" ∨ r.district = f.district) ∧
  (f.cadaster = "All" ∨ r.cadaster = f.cadaster) ∧
  (f.siteStatus = "All" ∨ r.siteStatus = f.siteStatus) ∧
  (f.phoneStatus = "All" ∨ r.phoneStatus = f.phoneStatus) ∧
  (f.qc = "Any issue" → r.qcAny = "Yes") ∧
  (f.qc = "No issues" → r.qcAny = "No") ∧
  (jsLower (jsTrim f.q) = "" ∨ listHasSub (jsLower (jsTrim f.q)).data r.search.data = true)

instance (f : Filters) (r : NormalizedRecord) : Decidable (specPasses f r) := by
  unfold specPasses
  infer_instance

/-- The truthiness predicate of the specification for QC flag columns:
boolean true, the number 1, or case-insensitive text `yes`/`true`/`1`. -/
def truthySpec (v : Value) : Prop :=
  v = .bool true ∨ v = .num 1 ∨
  jsLower (normText v) = "yes" ∨ jsLower (normText v) = "true" ∨
  jsLower (normText v) = "1"

instance (v : Value) : Decidable (truthySpec v) := by
  unfold truthySpec
  infer_instance

/-- The specification's sample for column scoring: the successfully parsed
values among the first `min(1200, rows.length)` rows. -/
def parsedSample (rows : List Row) (key : String) : List ℚ :=
  (rows.take 1200).filterMap (fun r => parseCoordinate (jsGet r key))

/-- The specification's in-band count over the parsed sample. -/
def inBandCount (rows : List Row) (key : String) (lo hi : ℚ) : ℕ :=
  (parsedSample rows key).countP (fun v => decide (lo ≤ v ∧ v ≤ hi))

/-- A row qualifies for the coordinate index at identifier `p` when its
trimmed identifier equals `p` and both coordinates parse to finite
numbers. -/
def qualifiesAt (pk lk gk : String) (p : String) (r : Row) : Bool :=
  pcodeOf r pk = p ∧ (parseCoordinate (jsGet r lk)).isSome
    ∧ (parseCoordinate (jsGet r gk)).isSome

/-- The coordinates of the last qualifying row with identifier `p`. -/
def lastCoords (rows : List Row) (pk lk gk : String) (p : String) : Option LatLng :=
  ((rows.filter (qualifiesAt pk lk gk p)).getLast?).map
    (fun r => ⟨(parseCoordinate (jsGet r lk)).getD 0, (parseCoordinate (jsGet r gk)).getD 0⟩)

/-- The specification's name-matched pick for one axis: `k` is a
name-matched candidate whose score reaches `0.25` and is maximal among the
candidates. -/
def specNamedPick (nsc : String → ℚ) (named : List String) (k : String) : Prop :=
  k ∈ named ∧ mkRat 25 100 ≤ nsc k ∧ ∀ x ∈ named, nsc x ≤ nsc k

/-- The specification's failure of the name-matched pick: every candidate
scores below `0.25`. -/
def specNamedFail (nsc : String → ℚ) (named : List String) : Prop :=
  ∀ x ∈ named, nsc x < mkRat 25 100

/-- The specification's statistical fallback for one axis: `k` is the key
of an allowed scored column whose score reaches `0.65` and is maximal
among the allowed columns. -/
def specStatPick (score : ScoredKey → ℚ) (allowed : List ScoredKey) (k : String) : Prop :=
  ∃ s ∈ allowed, s.key = k ∧ mkRat 65 100 ≤ score s ∧ ∀ x ∈ allowed, score x ≤ score s

/-- The specification's failure of the statistical fallback: every allowed
column scores below `0.65`. -/
def specStatFail (score : ScoredKey → ℚ) (allowed : List ScoredKey) : Prop :=
  ∀ x ∈ allowed, score x < mkRat 65 100

/-- The specification's two-stage selection rule for one axis, as a
characterization of the produced optional key. -/
def specAxis (nsc : String → ℚ) (named : List String) (score : ScoredKey → ℚ)
    (allowed : List ScoredKey) (res : Option String) : Prop :=
  (∀ k, res = some k →
    specNamedPick nsc named k ∨ (specNamedFail nsc named ∧ specStatPick score allowed k)) ∧
  (res = none → specNamedFail nsc named ∧ specStatFail score allowed)

/-! ## Concrete inputs used by witnesses and counterexamples -/

/-- Criteria with reserved URL characters in the free text, for the
round-trip witness. -/
def roundTripFilters : Filters :=
  ⟨"a&b =?+%2 é", "Beirut", "All", "Active", "All", "Any issue"⟩

/-- Three rows for the scoring witness: two parse under key `k` (one inside
the latitude band), one lacks the key. -/
def scoreWitnessRows : List Row :=
  [[("k", .num 33)], [("k", .num 99)], [("x", .num 1)]]

/-- The `n`-th falsy spelling used for QC rule columns. -/
def noLikeValue (n : ℕ) : Value :=
  match n % 3 with
  | 0 => .str "No"
  | 1 => .bool false
  | _ => .num 0

/-- A row with all 14 QC rule columns set to `"No"`/`false`/`0`. -/
def allNoQcRow : Row :=
  QC_RULES.enum.map (fun p => (p.2.col, noLikeValue p.1))

/-- A row whose only truthy rule column is `QC - Totals mismatch`. -/
def onlyTotalsRow : Row :=
  [("QC - Totals mismatch", .str "Yes")]

/-- A row whose `QC - Any issue` cell is `"TRUE"` while a rule column is
truthy. -/
def trueUpperRow : Row :=
  [("QC - Any issue", .str "TRUE"), ("QC - Totals mismatch", .str "Yes")]

/-- The criteria selecting records with any QC issue. -/
def anyIssueFilters : Filters :=
  { defaultFilters with qc := "Any issue" }

/-- A row whose `QC - Any issue` cell is the lowercase `"yes"`. -/
def yesLowerRow : Row :=
  [("QC - Any issue", .str "yes")]

/-- A row whose `QC - Any issue` cell is the numeral text `"1"`. -/
def oneSpellRow : Row :=
  [("QC - Any issue", .str "1")]

/-- Row A of the specification's end-to-end scenario. -/
def rowA : Row :=
  [("PCode", .str "0001-01-001"), ("Phone call status", .str "Answer"),
   ("Site Status", .str "Active"), ("Latitude", .num (mkRat 67 2)),
   ("Longitude", .num (mkRat 71 2)), ("Total number of Households", .num 10)]

/-- Row B of the specification's end-to-end scenario. -/
def rowB : Row :=
  [("PCode", .str "0002-01-002"), ("Phone call status", .str ""),
   ("Site Status", .str "")]

/-- A duplicate of row A's identifier with different coordinates. -/
def rowADup : Row :=
  [("PCode", .str "0001-01-001"), ("Latitude", .num 33), ("Longitude", .num 35)]

/-- Rows for the index witness: A, B, then a duplicate identifier of A. -/
def coordsWitnessRows : List Row := [rowA, rowB, rowADup]

/-- A row set with no plausible coordinate column. -/
def noCoordRows : List Row := [[("PCode", .str "A"), ("x", .num 1)]]

/-- A single-column row set whose column name matches both the latitude and
the longitude name pattern and whose value lies in both geographic bands. -/
def sharedNameRows : List Row :=
  [[("lat lon", .num (mkRat 69 2))]]

/-- A two-column row whose names match the latitude and longitude patterns. -/
def latlngRow : Row :=
  [("Latitude", .num 33), ("Longitude", .num 35)]



end IAMP

namespace IAMP

/-! # Theorems -/

/-- Reduction: a non-quote character passes through `csvUnquote`. -/
lemma csvUnquote_cons_ne (c : Char) (rest : List Char) (h : c ≠ '"') :
    csvUnquote (c :: rest) = c :: csvUnquote rest := by
  rw [csvUnquote.eq_def]
  simp [h]

/-- Reduction: a doubled quote unquotes to a literal quote. -/
lemma csvUnquote_quote_quote (rest : List Char) :
    csvUnquote ('"' :: '"' :: rest) = '"' :: csvUnquote rest := by
  simp [csvUnquote]

/-- Reduction: a final quote closes the field. -/
lemma csvUnquote_quote_end : csvUnquote ['"'] = [] := by
  simp [csvUnquote]

/-- The quote-doubling map is undone by standard unquoting. -/
lemma csvUnquote_doubled (cs : List Char) :
    csvUnquote ((cs.flatMap (fun c => if c = '"' then ['"', '"'] else [c])) ++ ['"'])
      = cs := by
  induction cs with
  | nil => simpa using csvUnquote_quote_end
  | cons c cs ih =>
    by_cases h : c = '"'
    · subst h
      simpa [csvUnquote_quote_quote] using ih
    · simpa [h, csvUnquote_cons_ne c _ h] using ih

/-- A field free of quote, newline and comma parses to itself. -/
lemma csvParseField_plain (s : String)
    (h : s.data.any (fun c => c = '"' ∨ c = '\n' ∨ c = ',') = false) :
    csvParseField s = s := by
  unfold csvParseField
  cases hd : s.data with
  | nil => rfl
  | cons c rest =>
    have h2 := h
    rw [hd] at h2
    simp only [List.any_cons, Bool.or_eq_false_iff, decide_eq_false_iff_not] at h2
    have hcq : ¬(c = '"') := fun hq => h2.1 (Or.inl hq)
    simp [hcq]

/-- Every serialized field re-parses to the original string. -/
lemma escCsv_roundtrip (s : String) : csvParseField (escCsv s) = s := by
  by_cases h : s.data.any (fun c => c = '"' ∨ c = '\n' ∨ c = ',') = true
  · have hd : (escCsv s).data
        = '"' :: ((s.data.flatMap (fun c => if c = '"' then ['"', '"'] else [c])) ++ ['"']) := by
      simp only [escCsv, if_pos h]
      simp [String.data_append]
    unfold csvParseField
    rw [hd]
    simp only [if_pos rfl, csvUnquote_doubled]
    cases s
    rfl
  · have hf : s.data.any (fun c => c = '"' ∨ c = '\n' ∨ c = ',') = false := by
      simpa using h
    have he : escCsv s = s := by
      simp only [escCsv, hf]
      simp
    rw [he]
    exact csvParseField_plain s hf

/-- C10: the CSV export emits each field unchanged unless it contains a
double quote, comma, or newline, in which case the field is quoted with
internal quotes doubled; the example field `He said, "hi"` serializes to
`"He said, ""hi"""`; and every serialized field re-parses to the original
string under standard CSV field parsing. -/
theorem toCSV_field_quoting_roundtrip :
    (∀ s : String, s.data.any (fun c => c = '"' ∨ c = '\n' ∨ c = ',') = false →
      escCsv s = s) ∧
    (∀ s : String, csvParseField (escCsv s) = s) ∧
    escCsv "He said, \"hi\"" = "\"He said, \"\"hi\"\"\"" ∧
    toCSV [[("A", Value.str "He said, \"hi\"")]] ["A"]
      = "A\n\"He said, \"\"hi\"\"\"" := by
  refine ⟨?_, escCsv_roundtrip, by decide, by decide⟩
  intro s hf
  simp only [escCsv, hf]
  simp

/-- Witness for the hypothesis-bearing clause of the C10 theorem, at the
concrete field of the claim. -/
theorem toCSV_field_quoting_roundtrip_witness :
    csvParseField (escCsv "He said, \"hi\"") = "He said, \"hi\""
      ∧ escCsv "plain" = "plain" :=
  ⟨toCSV_field_quoting_roundtrip.2.1 "He said, \"hi\"",
   toCSV_field_quoting_roundtrip.1 "plain" (by decide)⟩

/-- The source's early-return chain computes the specification's
conjunction. -/
lemma passes_iff (f : Filters) (r : NormalizedRecord) :
    passes f r = true ↔ specPasses f r := by
  unfold passes specPasses
  constructor
  · intro h
    simp only [Bool.and_eq_true, Bool.not_eq_true', decide_eq_false_iff_not] at h
    obtain ⟨⟨⟨⟨⟨⟨h1, h2⟩, h3⟩, h4⟩, h5⟩, h6⟩, h7⟩ := h
    push_neg at h1 h2 h3 h4 h5 h6 h7
    exact ⟨or_iff_not_imp_left.mpr h1, or_iff_not_imp_left.mpr h2,
      or_iff_not_imp_left.mpr h3, or_iff_not_imp_left.mpr h4, h5, h6,
      or_iff_not_imp_left.mpr h7⟩
  · intro h
    obtain ⟨h1, h2, h3, h4, h5, h6, h7⟩ := h
    simp only [Bool.and_eq_true, Bool.not_eq_true', decide_eq_false_iff_not]
    refine ⟨⟨⟨⟨⟨⟨?_, ?_⟩, ?_⟩, ?_⟩, ?_⟩, ?_⟩, ?_⟩ <;> push_neg
    · exact fun hne => h1.resolve_left hne
    · exact fun hne => h2.resolve_left hne
    · exact fun hne => h3.resolve_left hne
    · exact fun hne => h4.resolve_left hne
    · exact h5
    · exact h6
    · exact fun hne => h7.resolve_left hne

/-- Every record satisfies the default criteria. -/
lemma passes_default (r : NormalizedRecord) :
    passes defaultFilters r = true := by
  rw [passes_iff]
  unfold specPasses defaultFilters
  refine ⟨Or.inl rfl, Or.inl rfl, Or.inl rfl, Or.inl rfl, ?_, ?_, Or.inl (by decide)⟩ <;>
    intro h <;> simp at h

/-- C5: `applyFilters` returns a subsequence of its input in the original
order, keeps exactly the records satisfying the conjunction of the
criteria (verbatim match or `"All"`, the QC selector rules, and substring
search), and the default criteria keep every record unchanged. -/
theorem applyFilters_subsequence_exact :
    (∀ (f : Filters) (rows : List NormalizedRecord),
      (applyFilters f rows).Sublist rows) ∧
    (∀ (f : Filters) (rows : List NormalizedRecord),
      applyFilters f rows = rows.filter (fun r => decide (specPasses f r))) ∧
    (∀ rows : List NormalizedRecord, applyFilters defaultFilters rows = rows) := by
  refine ⟨fun f rows => List.filter_sublist rows, fun f rows => ?_, fun rows => ?_⟩
  · unfold applyFilters
    refine List.filter_congr (fun r _ => ?_)
    by_cases h : specPasses f r
    · simp [h, (passes_iff f r).mpr h]
    · have : passes f r ≠ true := fun ht => h ((passes_iff f r).mp ht)
      simp [h, Bool.eq_false_iff.mpr this]
  · unfold applyFilters
    exact List.filter_eq_self.mpr (fun r _ => passes_default r)

/-- Accumulating push inside a fold is filtering followed by mapping. -/
lemma foldl_push_filter {α β : Type} (l : List α) (p : α → Bool) (g : α → β)
    (acc : List β) :
    l.foldl (fun acc x => if p x then acc ++ [g x] else acc) acc
      = acc ++ (l.filter p).map g := by
  induction l generalizing acc with
  | nil => simp
  | cons x l ih =>
    by_cases hp : p x
    · simp [hp, ih]
    · simp [hp, ih]

/-- In-place replacement of key `f` is invisible to `find?` on key `k ≠ f`. -/
lemma find?_replace_ne {β : Type} (r : List (String × β)) (f k : String) (v : β) (h : f ≠ k) :
    List.find? (fun p => p.1 = k) (r.map (fun p => if p.1 = f then (f, v) else p))
      = List.find? (fun p => p.1 = k) r := by
  induction r with
  | nil => rfl
  | cons p r ih =>
    by_cases hp : p.1 = f
    · have hk2 : ¬(p.1 = k) := by rw [hp]; exact h
      simp only [List.map_cons, if_pos hp]
      rw [List.find?_cons_of_neg _ (by simpa using h),
        List.find?_cons_of_neg _ (by simpa using hk2)]
      exact ih
    · simp only [List.map_cons, if_neg hp]
      by_cases hk : p.1 = k
      · rw [List.find?_cons_of_pos _ (by simpa using hk),
          List.find?_cons_of_pos _ (by simpa using hk)]
      · rw [List.find?_cons_of_neg _ (by simpa using hk),
          List.find?_cons_of_neg _ (by simpa using hk)]
        exact ih

/-- Appending an entry for key `f` is invisible to `find?` on key `k ≠ f`. -/
lemma find?_append_entry_ne {β : Type} (r : List (String × β)) (f k : String) (v : β) (h : f ≠ k) :
    List.find? (fun p => p.1 = k) (r ++ [(f, v)])
      = List.find? (fun p => p.1 = k) r := by
  induction r with
  | nil =>
    simp only [List.nil_append]
    rw [List.find?_cons_of_neg _ (by simpa using h)]
  | cons p r ih =>
    by_cases hk : p.1 = k
    · rw [List.cons_append, List.find?_cons_of_pos _ (by simpa using hk),
        List.find?_cons_of_pos _ (by simpa using hk)]
    · rw [List.cons_append, List.find?_cons_of_neg _ (by simpa using hk),
        List.find?_cons_of_neg _ (by simpa using hk)]
      exact ih

/-- Setting one key leaves every other key unread. -/
lemma rowGet_rowSet_ne (r : Row) (f k : String) (v : Value) (h : f ≠ k) :
    rowGet (rowSet r f v) k = rowGet r k := by
  by_cases hc : r.any (fun p => p.1 = f) = true
  · unfold rowSet rowGet
    rw [if_pos hc, find?_replace_ne r f k v h]
  · unfold rowSet rowGet
    rw [if_neg hc, find?_append_entry_ne r f k v h]

/-- Numeric coercion leaves every key outside `NUM_FIELDS` unread. -/
lemma jsGet_coerceNumerics (r : Row) (k : String) (h : k ∉ NUM_FIELDS) :
    jsGet (coerceNumerics r) k = jsGet r k := by
  have hgen : ∀ (fields : List String) (r : Row), k ∉ fields →
      rowGet (fields.foldl (fun acc f => rowSet acc f (.num (toNum (jsGet acc f)))) r) k
        = rowGet r k := by
    intro fields
    induction fields with
    | nil => intro r _; rfl
    | cons f fs ih =>
      intro r hk
      have hf : f ≠ k := fun hc => hk (hc ▸ List.mem_cons_self f fs)
      have hfs : k ∉ fs := fun hc => hk (List.mem_cons_of_mem f hc)
      simp only [List.foldl_cons]
      rw [ih _ hfs, rowGet_rowSet_ne r f k _ hf]
  exact congrArg (fun o => o.getD Value.empty) (hgen NUM_FIELDS r h)

/-- The source's `truthy` decides the specification's truthiness. -/
lemma truthy_iff (v : Value) : truthy v = true ↔ truthySpec v := by
  unfold truthy truthySpec
  by_cases h1 : v = .bool true
  · simp [h1]
  · by_cases h2 : v = .num 1
    · simp [h1, h2]
    · simp only [if_neg h1, if_neg h2, decide_eq_true_eq]
      constructor
      · intro h
        exact Or.inr (Or.inr (by tauto))
      · intro h
        rcases h with h | h | h
        · exact absurd h h1
        · exact absurd h h2
        · exact h

set_option maxHeartbeats 2000000 in
/-- No QC rule column is a numeric field. -/
lemma qc_cols_not_numeric : ∀ ru ∈ QC_RULES, ru.col ∉ NUM_FIELDS := by
  decide

/-- The `qcFlags` fold produces the filtered label list over the raw row. -/
lemma qcFlags_eq (r : Row) :
    (normalizeRow r).qcFlags
      = (QC_RULES.filter (fun ru => truthy (jsGet r ru.col))).map (·.label) := by
  simp only [normalizeRow]
  rw [foldl_push_filter QC_RULES (fun ru => truthy (jsGet (coerceNumerics r) ru.col))
    (·.label) []]
  rw [List.filter_congr (fun ru hru => by
    rw [jsGet_coerceNumerics r ru.col (qc_cols_not_numeric ru hru)])]
  simp

/-- C6: `qcFlags` is exactly the in-order sequence of labels of the 14 QC
rules whose column is boolean true, the number 1, or case-insensitive
`yes`/`true`/`1`; an all-falsy row yields no flags and a row whose only
truthy rule column is `QC - Totals mismatch` yields exactly that label. -/
theorem qcFlags_rule_labels :
    QC_RULES.length = 14 ∧
    (∀ r : Row, (normalizeRow r).qcFlags
        = (QC_RULES.filter (fun ru => decide (truthySpec (jsGet r ru.col)))).map (·.label)) ∧
    (normalizeRow allNoQcRow).qcFlags = [] ∧
    (normalizeRow onlyTotalsRow).qcFlags
        = ["Totals mismatch (structures/HH/IND vs components)"] := by
  have hspec : ∀ r : Row, (normalizeRow r).qcFlags
      = (QC_RULES.filter (fun ru => decide (truthySpec (jsGet r ru.col)))).map (·.label) := by
    intro r
    rw [qcFlags_eq]
    refine congrArg _ (List.filter_congr fun ru _ => ?_)
    by_cases h : truthySpec (jsGet r ru.col)
    · simp [h, (truthy_iff _).mpr h]
    · have hf : truthy (jsGet r ru.col) = false :=
        Bool.eq_false_iff.mpr (fun ht => h ((truthy_iff _).mp ht))

      simp [h, hf]
  refine ⟨rfl, hspec, ?_, ?_⟩
  · rw [qcFlags_eq]
    decide
  · rw [qcFlags_eq]
    decide

/-- The status-bearing columns are not numeric fields. -/
lemma jsGet_coerce_phone (r : Row) :
    jsGet (coerceNumerics r) "Phone call status" = jsGet r "Phone call status" :=
  jsGet_coerceNumerics r _ (by decide)

/-- `Site Status` is not a numeric field. -/
lemma jsGet_coerce_site (r : Row) :
    jsGet (coerceNumerics r) "Site Status" = jsGet r "Site Status" :=
  jsGet_coerceNumerics r _ (by decide)

/-- `QC - Any issue` is not a numeric field. -/
lemma jsGet_coerce_qcAny (r : Row) :
    jsGet (coerceNumerics r) "QC - Any issue" = jsGet r "QC - Any issue" :=
  jsGet_coerceNumerics r _ (by decide)

/-- C7: `assessed` is non-emptiness of the trimmed phone-call-status;
`siteStatus` is the trimmed raw value with the `Not recorded`/`Not
assessed` precedence; `phoneStatus` is the trimmed raw value when assessed
and `Not assessed` otherwise.  The end-to-end rows A and B of the
specification evaluate accordingly. -/
theorem normalize_status_fields :
    (∀ r : Row,
      ((normalizeRow r).assessed = true ↔ normText (jsGet r "Phone call status") ≠ "") ∧
      (normalizeRow r).siteStatus =
        (if normText (jsGet r "Site Status") ≠ "" then normText (jsGet r "Site Status")
         else if normText (jsGet r "Phone call status") ≠ "" then "Not recorded"
         else "Not assessed") ∧
      (normalizeRow r).phoneStatus =
        (if normText (jsGet r "Phone call status") ≠ "" then
          normText (jsGet r "Phone call status")
         else "Not assessed")) ∧
    (normalizeRow rowA).assessed = true ∧ (normalizeRow rowA).siteStatus = "Active" ∧
    (normalizeRow rowA).phoneStatus = "Answer" ∧
    (normalizeRow rowB).assessed = false ∧
    (normalizeRow rowB).siteStatus = "Not assessed" ∧
    (normalizeRow rowB).phoneStatus = "Not assessed" := by
  have hall : ∀ r : Row,
      ((normalizeRow r).assessed = true ↔ normText (jsGet r "Phone call status") ≠ "") ∧
      (normalizeRow r).siteStatus =
        (if normText (jsGet r "Site Status") ≠ "" then normText (jsGet r "Site Status")
         else if normText (jsGet r "Phone call status") ≠ "" then "Not recorded"
         else "Not assessed") ∧
      (normalizeRow r).phoneStatus =
        (if normText (jsGet r "Phone call status") ≠ "" then
          normText (jsGet r "Phone call status")
         else "Not assessed") := by
    intro r
    simp only [normalizeRow, jsGet_coerce_phone, jsGet_coerce_site]
    refine ⟨by simp, ?_, ?_⟩ <;>
      by_cases hs : normText (jsGet r "Site Status") = "" <;>
      by_cases hp : normText (jsGet r "Phone call status") = "" <;>
      simp [hs, hp]
  refine ⟨hall, ?_, ?_, ?_, ?_, ?_, ?_⟩
  · exact ((hall rowA).1.mpr (by decide))
  · rw [(hall rowA).2.1]
    decide
  · rw [(hall rowA).2.2]
    decide
  · have := (hall rowB).1
    rw [show normText (jsGet rowB "Phone call status") = "" from by decide] at this
    simpa using fun hc => (this.mp hc) rfl
  · rw [(hall rowB).2.1]
    decide
  · rw [(hall rowB).2.2]
    decide

/-- C8: `qcAny` is `"Yes"` iff the trimmed raw `QC - Any issue` value is
exactly the case-sensitive string `"Yes"`, and `"No"` otherwise; truthy
spellings such as `"yes"`, `"TRUE"` and `"1"` normalize to `"No"`, and such
a record is excluded by the `Any issue` criterion even with a non-empty
`qcFlags`. -/
theorem qcAny_strict_yes :
    (∀ r : Row,
      ((normalizeRow r).qcAny = "Yes" ↔ normText (jsGet r "QC - Any issue") = "Yes") ∧
      ((normalizeRow r).qcAny = "Yes" ∨ (normalizeRow r).qcAny = "No")) ∧
    (normalizeRow yesLowerRow).qcAny = "No" ∧
    (normalizeRow oneSpellRow).qcAny = "No" ∧
    (normalizeRow trueUpperRow).qcAny = "No" ∧
    (normalizeRow [("QC - Any issue", .str "")]).qcAny = "No" ∧
    (normalizeRow trueUpperRow).qcFlags ≠ [] ∧
    applyFilters anyIssueFilters [normalizeRow trueUpperRow] = [] := by
  have hall : ∀ r : Row,
      ((normalizeRow r).qcAny = "Yes" ↔ normText (jsGet r "QC - Any issue") = "Yes") ∧
      ((normalizeRow r).qcAny = "Yes" ∨ (normalizeRow r).qcAny = "No") := by
    intro r
    simp only [normalizeRow, jsGet_coerce_qcAny]
    constructor
    · by_cases he : normText (jsGet r "QC - Any issue") = ""
      · simp [he]
      · by_cases hy : normText (jsGet r "QC - Any issue") = "Yes"
        · simp [he, hy]
        · simp [he, hy]
    · by_cases he : normText (jsGet r "QC - Any issue") = ""
      · simp [he]
      · by_cases hy : normText (jsGet r "QC - Any issue") = "Yes"
        · simp [he, hy]
        · simp [he, hy]
  have hTrue : (normalizeRow trueUpperRow).qcAny = "No" := by
    have h1 := (hall trueUpperRow).1
    have h2 := (hall trueUpperRow).2
    rcases h2 with h2 | h2
    · exact absurd (h1.mp h2) (by decide)
    · exact h2
  refine ⟨hall, ?_, ?_, hTrue, ?_, ?_, ?_⟩
  · have h1 := (hall yesLowerRow).1
    rcases (hall yesLowerRow).2 with h2 | h2
    · exact absurd (h1.mp h2) (by decide)
    · exact h2
  · have h1 := (hall oneSpellRow).1
    rcases (hall oneSpellRow).2 with h2 | h2
    · exact absurd (h1.mp h2) (by decide)
    · exact h2
  · have h1 := (hall [("QC - Any issue", .str "")]).1
    rcases (hall [("QC - Any issue", .str "")]).2 with h2 | h2
    · exact absurd (h1.mp h2) (by decide)
    · exact h2
  · rw [qcFlags_eq]
    decide
  · unfold applyFilters
    have hpass : passes anyIssueFilters (normalizeRow trueUpperRow) = false := by
      rw [Bool.eq_false_iff]
      intro ht
      have hs := (passes_iff _ _).mp ht
      have := hs.2.2.2.2.1 rfl
      rw [hTrue] at this
      exact absurd this (by decide)
    simp [hpass]

/-- The counting loop of `scoreKeyInRange` computes the in-band count and
the parsed-value count. -/
lemma score_fold (key : String) (lo hi : ℚ) (l : List Row) :
    ∀ a b : ℕ,
      l.foldl
        (fun (p : ℕ × ℕ) r =>
          match parseCoordinate (jsGet r key) with
          | none => p
          | some v => (if lo ≤ v ∧ v ≤ hi then p.1 + 1 else p.1, p.2 + 1)) (a, b)
      = (a + (l.filterMap (fun r => parseCoordinate (jsGet r key))).countP
            (fun v => decide (lo ≤ v ∧ v ≤ hi)),
         b + (l.filterMap (fun r => parseCoordinate (jsGet r key))).length) := by
  induction l with
  | nil => intro a b; simp
  | cons r l ih =>
    intro a b
    simp only [List.foldl_cons, List.filterMap_cons]
    cases h : parseCoordinate (jsGet r key) with
    | none => simpa using ih a b
    | some v =>
      by_cases hband : lo ≤ v ∧ v ≤ hi
      · simp only [if_pos hband, ih, List.countP_cons, List.length_cons,
          Prod.mk.injEq, decide_eq_true_eq, if_pos hband]
        omega
      · simp only [if_neg hband, ih, List.countP_cons, List.length_cons,
          Prod.mk.injEq, decide_eq_true_eq, if_neg hband]
        omega

/-- `scoreKeyInRange` in terms of the specification's sample. -/
lemma scoreKeyInRange_spec (rows : List Row) (key : String) (lo hi : ℚ) :
    (parsedSample rows key = [] → scoreKeyInRange rows key lo hi = 0) ∧
    (parsedSample rows key ≠ [] →
      scoreKeyInRange rows key lo hi
        = (inBandCount rows key lo hi : ℚ) / ((parsedSample rows key).length : ℚ)) ∧
    0 ≤ scoreKeyInRange rows key lo hi ∧ scoreKeyInRange rows key lo hi ≤ 1 := by
  have hfold := score_fold key lo hi (rows.take 1200) 0 0
  have hs : scoreKeyInRange rows key lo hi
      = if (parsedSample rows key).length = 0 then 0
        else (inBandCount rows key lo hi : ℚ) / ((parsedSample rows key).length : ℚ) := by
    unfold scoreKeyInRange parsedSample inBandCount
    rw [hfold]
    simp only [Nat.zero_add]
    split
    · rfl
    · rw [Rat.mkRat_eq_div]
      push_cast
      rfl
  have hle : inBandCount rows key lo hi ≤ (parsedSample rows key).length :=
    List.countP_le_length _
  constructor
  · intro h
    rw [hs, h]
    simp
  constructor
  · intro h
    rw [hs, if_neg (by simpa using fun hc => h (List.length_eq_zero.mp hc))]
  constructor
  · rw [hs]
    split
    · exact le_refl 0
    · positivity
  · rw [hs]
    split
    · exact zero_le_one
    · rename_i hne
      rw [div_le_one (by positivity)]
      exact_mod_cast hle

/-- C2: for each band (latitude `[32, 35.9]`, longitude `[34, 37.9]`), the
column score is the fraction of in-band values among the successfully
parsed values of the first `min(1200, row count)` rows, `0` when nothing
parses, and always lies in `[0, 1]`. -/
theorem scoreKeyInRange_fraction (rows : List Row) (key : String) :
    (parsedSample rows key).length ≤ min 1200 rows.length ∧
    ((parsedSample rows key = [] → scoreKeyInRange rows key 32 (mkRat 359 10) = 0) ∧
     (parsedSample rows key ≠ [] →
       scoreKeyInRange rows key 32 (mkRat 359 10)
         = (inBandCount rows key 32 (mkRat 359 10) : ℚ) / ((parsedSample rows key).length : ℚ)) ∧
     0 ≤ scoreKeyInRange rows key 32 (mkRat 359 10) ∧
     scoreKeyInRange rows key 32 (mkRat 359 10) ≤ 1) ∧
    ((parsedSample rows key = [] → scoreKeyInRange rows key 34 (mkRat 379 10) = 0) ∧
     (parsedSample rows key ≠ [] →
       scoreKeyInRange rows key 34 (mkRat 379 10)
         = (inBandCount rows key 34 (mkRat 379 10) : ℚ) / ((parsedSample rows key).length : ℚ)) ∧
     0 ≤ scoreKeyInRange rows key 34 (mkRat 379 10) ∧
     scoreKeyInRange rows key 34 (mkRat 379 10) ≤ 1) := by
  refine ⟨?_, scoreKeyInRange_spec rows key 32 (mkRat 359 10),
    scoreKeyInRange_spec rows key 34 (mkRat 379 10)⟩
  calc (parsedSample rows key).length
      ≤ (rows.take 1200).length := List.length_filterMap_le _ _
    _ = min 1200 rows.length := by simp [List.length_take]

/-- Witness for C2 at a concrete row set: two of three rows parse, one lies
in the latitude band, so the latitude score is `1 / 2`. -/
theorem scoreKeyInRange_fraction_witness :
    parsedSample scoreWitnessRows "k" ≠ [] ∧
    scoreKeyInRange scoreWitnessRows "k" 32 (mkRat 359 10) = 1 / 2 := by
  refine ⟨by decide, ?_⟩
  rw [(scoreKeyInRange_fraction scoreWitnessRows "k").2.1.2.1 (by decide),
    show inBandCount scoreWitnessRows "k" 32 (mkRat 359 10) = 1 from by decide,
    show (parsedSample scoreWitnessRows "k").length = 2 from by decide]
  norm_num

/-- `find?` after in-place replacement of a present key finds the new
entry. -/
lemma find?_replace_self {β : Type} (m : List (String × β)) (k : String) (v : β)
    (h : m.any (fun p => p.1 = k) = true) :
    List.find? (fun p => p.1 = k) (m.map (fun p => if p.1 = k then (k, v) else p))
      = some (k, v) := by
  induction m with
  | nil => simp at h
  | cons p m ih =>
    by_cases hk : p.1 = k
    · simp only [List.map_cons, if_pos hk]
      rw [List.find?_cons_of_pos _ (by simp)]
    · simp only [List.map_cons, if_neg hk]
      rw [List.find?_cons_of_neg _ (by simpa using hk)]
      refine ih ?_
      simpa [hk] using h

/-- `find?` over an appended entry for an absent key finds that entry. -/
lemma find?_append_entry_self {β : Type} (m : List (String × β)) (k : String) (v : β)
    (h : m.any (fun p => p.1 = k) = false) :
    List.find? (fun p => p.1 = k) (m ++ [(k, v)]) = some (k, v) := by
  induction m with
  | nil =>
    simp only [List.nil_append]
    rw [List.find?_cons_of_pos _ (by simp)]
  | cons p m ih =>
    simp only [List.any_cons, Bool.or_eq_false_iff, decide_eq_false_iff_not] at h
    rw [List.cons_append, List.find?_cons_of_neg _ (by simpa using h.1)]
    exact ih (by simpa using h.2)

/-- `Map.set` then `get` on the same key yields the new value. -/
lemma mapLookup_mapSet_self (m : List (String × LatLng)) (k : String) (v : LatLng) :
    mapLookup (mapSet m k v) k = some v := by
  unfold mapSet mapLookup
  by_cases h : m.any (fun p => p.1 = k) = true
  · rw [if_pos h, find?_replace_self m k v h]
    rfl
  · rw [if_neg h, find?_append_entry_self m k v (Bool.eq_false_iff.mpr h)]
    rfl

/-- `Map.set` then `get` on a different key is unchanged. -/
lemma mapLookup_mapSet_ne (m : List (String × LatLng)) (k k2 : String) (v : LatLng)
    (h : k ≠ k2) :
    mapLookup (mapSet m k v) k2 = mapLookup m k2 := by
  unfold mapSet mapLookup
  by_cases hc : m.any (fun p => p.1 = k) = true
  · rw [if_pos hc, find?_replace_ne m k k2 v h]
  · rw [if_neg hc, find?_append_entry_ne m k k2 v h]

/-- Step reduction: a blank identifier is skipped. -/
lemma coordsStep_skip_empty (pk lk gk : String) (acc : List (String × LatLng) × ℕ)
    (r : Row) (h : pcodeOf r pk = "") :
    coordsStep pk lk gk acc r = acc := by
  unfold coordsStep
  rw [if_pos h]

/-- Step reduction: both coordinates parse, the entry is set. -/
lemma coordsStep_set (pk lk gk : String) (acc : List (String × LatLng) × ℕ)
    (r : Row) (lat lng : ℚ) (h : pcodeOf r pk ≠ "")
    (hlat : parseCoordinate (jsGet r lk) = some lat)
    (hlng : parseCoordinate (jsGet r gk) = some lng) :
    coordsStep pk lk gk acc r = (mapSet acc.1 (pcodeOf r pk) ⟨lat, lng⟩, acc.2 + 1) := by
  unfold coordsStep
  rw [if_neg h, hlat, hlng]

/-- Step reduction: an unparseable latitude is skipped. -/
lemma coordsStep_skip_lat (pk lk gk : String) (acc : List (String × LatLng) × ℕ)
    (r : Row) (h : pcodeOf r pk ≠ "")
    (hlat : parseCoordinate (jsGet r lk) = none) :
    coordsStep pk lk gk acc r = acc := by
  unfold coordsStep
  rw [if_neg h, hlat]

/-- Step reduction: an unparseable longitude is skipped. -/
lemma coordsStep_skip_lng (pk lk gk : String) (acc : List (String × LatLng) × ℕ)
    (r : Row) (h : pcodeOf r pk ≠ "")
    (hlng : parseCoordinate (jsGet r gk) = none) :
    coordsStep pk lk gk acc r = acc := by
  unfold coordsStep
  rw [if_neg h, hlng]
  cases parseCoordinate (jsGet r lk) <;> rfl

/-- A row that does not qualify at `p` leaves the filtered list alone. -/
lemma lastCoords_cons_skip (rows : List Row) (pk lk gk : String) (p : String) (r : Row)
    (hq : qualifiesAt pk lk gk p r = false) :
    lastCoords (r :: rows) pk lk gk p = lastCoords rows pk lk gk p := by
  unfold lastCoords
  rw [List.filter_cons_of_neg (by simpa using hq)]

/-- A qualifying row is the fallback when no later row qualifies. -/
lemma lastCoords_cons_keep (rows : List Row) (pk lk gk : String) (p : String) (r : Row)
    (hq : qualifiesAt pk lk gk p r = true) :
    lastCoords (r :: rows) pk lk gk p
      = if rows.filter (qualifiesAt pk lk gk p) = []
        then some ⟨(parseCoordinate (jsGet r lk)).getD 0, (parseCoordinate (jsGet r gk)).getD 0⟩
        else lastCoords rows pk lk gk p := by
  unfold lastCoords
  rw [List.filter_cons_of_pos (by simpa using hq)]
  cases hrest : rows.filter (qualifiesAt pk lk gk p) with
  | nil => simp [hrest]
  | cons r2 l2 =>
    rw [if_neg (List.cons_ne_nil r2 l2), List.getLast?_cons_cons]

/-- The index-building loop: looking up `p` yields the coordinates of the
last qualifying row, else whatever the accumulator already held. -/
lemma coords_fold_lookup (pk lk gk : String) (rows : List Row) :
    ∀ (m : List (String × LatLng)) (c : ℕ) (p : String), p ≠ "" →
      mapLookup ((rows.foldl (coordsStep pk lk gk) (m, c)).1) p
        = (lastCoords rows pk lk gk p).or (mapLookup m p) := by
  induction rows with
  | nil =>
    intro m c p _
    rfl
  | cons r rows ih =>
    intro m c p hp
    simp only [List.foldl_cons]
    by_cases hempty : pcodeOf r pk = ""
    · have hq : qualifiesAt pk lk gk p r = false := by
        unfold qualifiesAt
        simp only [decide_eq_false_iff_not]
        intro hcon
        exact hp (by rw [← hcon.1]; exact hempty)
      rw [coordsStep_skip_empty pk lk gk (m, c) r hempty, ih m c p hp,
        lastCoords_cons_skip rows pk lk gk p r hq]
    · cases hlat : parseCoordinate (jsGet r lk) with
      | none =>
        have hq : qualifiesAt pk lk gk p r = false := by
          unfold qualifiesAt
          simp only [decide_eq_false_iff_not]
          intro hcon
          rw [hlat] at hcon
          exact absurd hcon.2.1 (by simp)
        rw [coordsStep_skip_lat pk lk gk (m, c) r hempty hlat, ih m c p hp,
          lastCoords_cons_skip rows pk lk gk p r hq]
      | some lat =>
        cases hlng : parseCoordinate (jsGet r gk) with
        | none =>
          have hq : qualifiesAt pk lk gk p r = false := by
            unfold qualifiesAt
            simp only [decide_eq_false_iff_not]
            intro hcon
            rw [hlng] at hcon
            exact absurd hcon.2.2 (by simp)
          rw [coordsStep_skip_lng pk lk gk (m, c) r hempty hlng, ih m c p hp,
            lastCoords_cons_skip rows pk lk gk p r hq]
        | some lng =>
          rw [coordsStep_set pk lk gk (m, c) r lat lng hempty hlat hlng]
          by_cases hpp : pcodeOf r pk = p
          · have hq : qualifiesAt pk lk gk p r = true := by
              unfold qualifiesAt
              simp [hlat, hlng, hpp]
            rw [ih _ _ p hp, lastCoords_cons_keep rows pk lk gk p r hq]
            by_cases hrest : rows.filter (qualifiesAt pk lk gk p) = []
            · rw [if_pos hrest]
              have hnone : lastCoords rows pk lk gk p = none := by
                unfold lastCoords
                rw [hrest]
                rfl
              rw [hnone, Option.none_or, hpp, mapLookup_mapSet_self _ p ⟨lat, lng⟩]
              simp [hlat, hlng]
            · rw [if_neg hrest]
              have hsome : ∃ x, lastCoords rows pk lk gk p = some x := by
                cases hx : (rows.filter (qualifiesAt pk lk gk p)).getLast? with
                | none => exact absurd (List.getLast?_eq_none_iff.mp hx) hrest
                | some x =>
                  refine ⟨⟨(parseCoordinate (jsGet x lk)).getD 0,
                    (parseCoordinate (jsGet x gk)).getD 0⟩, ?_⟩
                  unfold lastCoords
                  rw [hx]
                  rfl
              rcases hsome with ⟨x, hx⟩
              rw [hx]
              rfl
          · have hq : qualifiesAt pk lk gk p r = false := by
              unfold qualifiesAt
              simp only [decide_eq_false_iff_not]
              intro hcon
              exact hpp hcon.1
            rw [ih _ _ p hp, lastCoords_cons_skip rows pk lk gk p r hq,
              mapLookup_mapSet_ne _ (pcodeOf r pk) p ⟨lat, lng⟩ hpp]


/-- Keys of the built index are never blank. -/
lemma coords_fold_lookup_blank (pk lk gk : String) (rows : List Row) :
    ∀ (m : List (String × LatLng)) (c : ℕ), mapLookup m "" = none →
      mapLookup ((rows.foldl (coordsStep pk lk gk) (m, c)).1) "" = none := by
  induction rows with
  | nil => intro m c hm; exact hm
  | cons r rows ih =>
    intro m c hm
    simp only [List.foldl_cons]
    by_cases hempty : pcodeOf r pk = ""
    · rw [coordsStep_skip_empty pk lk gk (m, c) r hempty]
      exact ih m c hm
    · cases hlat : parseCoordinate (jsGet r lk) with
      | none =>
        rw [coordsStep_skip_lat pk lk gk (m, c) r hempty hlat]
        exact ih m c hm
      | some lat =>
        cases hlng : parseCoordinate (jsGet r gk) with
        | none =>
          rw [coordsStep_skip_lng pk lk gk (m, c) r hempty hlng]
          exact ih m c hm
        | some lng =>
          rw [coordsStep_set pk lk gk (m, c) r lat lng hempty hlat hlng]
          refine ih _ _ ?_
          rw [mapLookup_mapSet_ne _ (pcodeOf r pk) "" ⟨lat, lng⟩ hempty]
          exact hm

/-- Reduction of `buildCoordsMapFromRows` when an axis is unresolved. -/
lemma buildCoords_unresolved_lat (rows : List Row)
    (h : (inferLatLngKeys rows).latKey = none) :
    buildCoordsMapFromRows rows = ⟨[], 0, inferLatLngKeys rows, rows.length⟩ := by
  unfold buildCoordsMapFromRows
  rw [h]

/-- Reduction of `buildCoordsMapFromRows` when the longitude is
unresolved. -/
lemma buildCoords_unresolved_lng (rows : List Row)
    (h : (inferLatLngKeys rows).lngKey = none) :
    buildCoordsMapFromRows rows = ⟨[], 0, inferLatLngKeys rows, rows.length⟩ := by
  unfold buildCoordsMapFromRows
  rw [h]
  cases (inferLatLngKeys rows).latKey <;> rfl

/-- Reduction of `buildCoordsMapFromRows` when both axes resolve. -/
lemma buildCoords_resolved (rows : List Row) (lk gk : String)
    (h1 : (inferLatLngKeys rows).latKey = some lk)
    (h2 : (inferLatLngKeys rows).lngKey = some gk) :
    buildCoordsMapFromRows rows =
      ⟨(rows.foldl (coordsStep (inferLatLngKeys rows).pcodeKey lk gk) ([], 0)).1,
       (rows.foldl (coordsStep (inferLatLngKeys rows).pcodeKey lk gk) ([], 0)).2,
       inferLatLngKeys rows, rows.length⟩ := by
  unfold buildCoordsMapFromRows
  rw [h1, h2]

/-- C4: when either axis is unresolved the index is empty with a mapped
count of 0; when both resolve, looking up any non-blank identifier yields
exactly the coordinates of the last row with that trimmed identifier whose
two coordinates parse to finite numbers (and blank identifiers are never
present). -/
theorem buildCoordsMapFromRows_index (rows : List Row) :
    (((inferLatLngKeys rows).latKey = none ∨ (inferLatLngKeys rows).lngKey = none) →
      (buildCoordsMapFromRows rows).mp = [] ∧ (buildCoordsMapFromRows rows).mapped = 0) ∧
    (∀ lk gk, (inferLatLngKeys rows).latKey = some lk →
      (inferLatLngKeys rows).lngKey = some gk →
      mapLookup (buildCoordsMapFromRows rows).mp "" = none ∧
      ∀ p, p ≠ "" →
        mapLookup (buildCoordsMapFromRows rows).mp p
          = lastCoords rows (inferLatLngKeys rows).pcodeKey lk gk p) := by
  constructor
  · intro h
    rcases h with h | h
    · rw [buildCoords_unresolved_lat rows h]
      exact ⟨rfl, rfl⟩
    · rw [buildCoords_unresolved_lng rows h]
      exact ⟨rfl, rfl⟩
  · intro lk gk h1 h2
    rw [buildCoords_resolved rows lk gk h1 h2]
    constructor
    · exact coords_fold_lookup_blank (inferLatLngKeys rows).pcodeKey lk gk rows [] 0 rfl
    · intro p hp
      rw [coords_fold_lookup (inferLatLngKeys rows).pcodeKey lk gk rows [] 0 p hp]
      rw [show mapLookup [] p = none from rfl, Option.or_none]

/-- Witness for C4: on the three-row set the axes resolve to
`Latitude`/`Longitude`, the duplicated identifier keeps the later
coordinates, and a row set without plausible columns yields the empty
index. -/
theorem buildCoordsMapFromRows_index_witness :
    (inferLatLngKeys coordsWitnessRows).latKey = some "Latitude" ∧
    mapLookup (buildCoordsMapFromRows coordsWitnessRows).mp "0001-01-001"
      = some ⟨33, 35⟩ ∧
    (buildCoordsMapFromRows noCoordRows).mp = [] ∧
    (buildCoordsMapFromRows noCoordRows).mapped = 0 := by
  have h1 : (inferLatLngKeys coordsWitnessRows).latKey = some "Latitude" := by decide
  have h2 : (inferLatLngKeys coordsWitnessRows).lngKey = some "Longitude" := by decide
  have hmain := (buildCoordsMapFromRows_index coordsWitnessRows).2 "Latitude" "Longitude" h1 h2
  have hnone := (buildCoordsMapFromRows_index noCoordRows).1 (Or.inl (by decide))
  refine ⟨h1, ?_, hnone.1, hnone.2⟩
  rw [hmain.2 "0001-01-001" (by decide)]
  decide


/-- Every character code is below `0x110000`. -/
lemma char_toNat_lt (c : Char) : c.toNat < 1114112 := by
  rcases c.valid with h | h
  · exact Nat.lt_trans h (by norm_num)
  · exact h.2

/-- UTF-8 encoding of one scalar is undone by the byte decoder. -/
lemma utf8_decode_encode (c : Char) (rest : List ℕ) :
    utf8Decode (utf8Bytes c.toNat ++ rest) = c :: utf8Decode rest := by
  have hn : c.toNat < 1114112 := char_toNat_lt c
  unfold utf8Bytes
  by_cases h1 : c.toNat < 0x80
  · rw [if_pos h1]
    simp only [List.cons_append, List.nil_append]
    rw [utf8Decode.eq_def]
    dsimp only
    rw [if_pos h1, Char.ofNat_toNat]
  · rw [if_neg h1]
    by_cases h2 : c.toNat < 0x800
    · rw [if_pos h2]
      simp only [List.cons_append, List.nil_append]
      rw [utf8Decode.eq_def]
      dsimp only
      rw [if_neg (show ¬(0xC0 + c.toNat / 64 < 0x80) by omega),
        if_pos (show 0xC0 + c.toNat / 64 < 0xE0 by omega)]
      have hv : (0xC0 + c.toNat / 64) % 32 * 64 + (0x80 + c.toNat % 64) % 64
          = c.toNat := by omega
      rw [hv, Char.ofNat_toNat]
    · rw [if_neg h2]
      by_cases h3 : c.toNat < 0x10000
      · rw [if_pos h3]
        simp only [List.cons_append, List.nil_append]
        rw [utf8Decode.eq_def]
        dsimp only
        rw [if_neg (show ¬(0xE0 + c.toNat / 4096 < 0x80) by omega),
          if_neg (show ¬(0xE0 + c.toNat / 4096 < 0xE0) by omega),
          if_pos (show 0xE0 + c.toNat / 4096 < 0xF0 by omega)]
        have hv : (0xE0 + c.toNat / 4096) % 16 * 4096
            + (0x80 + c.toNat / 64 % 64) % 64 * 64 + (0x80 + c.toNat % 64) % 64
            = c.toNat := by omega
        rw [hv, Char.ofNat_toNat]
      · rw [if_neg h3]
        simp only [List.cons_append, List.nil_append]
        rw [utf8Decode.eq_def]
        dsimp only
        rw [if_neg (show ¬(0xF0 + c.toNat / 262144 < 0x80) by omega),
          if_neg (show ¬(0xF0 + c.toNat / 262144 < 0xE0) by omega),
          if_neg (show ¬(0xF0 + c.toNat / 262144 < 0xF0) by omega)]
        have hv : (0xF0 + c.toNat / 262144) % 8 * 262144
            + (0x80 + c.toNat / 4096 % 64) % 64 * 4096
            + (0x80 + c.toNat / 64 % 64) % 64 * 64 + (0x80 + c.toNat % 64) % 64
            = c.toNat := by omega
        rw [hv, Char.ofNat_toNat]


/-- Hex digits of a byte value decode back to the byte. -/
lemma hexVal_hexDigitChar (n : ℕ) (h : n < 16) :
    hexVal (hexDigitChar n) = some n := by
  interval_cases n <;> decide

/-- Bytes produced by the UTF-8 encoder are below 256. -/
lemma utf8Bytes_bound (n : ℕ) (hn : n < 1114112) :
    ∀ b ∈ utf8Bytes n, b < 256 := by
  unfold utf8Bytes
  split_ifs with h1 h2 h3 <;> intro b hb <;>
    simp only [List.mem_cons, List.mem_singleton, List.not_mem_nil, or_false] at hb
  · omega
  · rcases hb with hb | hb <;> omega
  · rcases hb with hb | hb | hb <;> omega
  · rcases hb with hb | hb | hb | hb <;> omega

/-- A percent escape decodes to its byte. -/
lemma pctDecodeBytes_pctByte (b : ℕ) (hb : b < 256) (rest : List Char) :
    pctDecodeBytes (pctByte b ++ rest) = b :: pctDecodeBytes rest := by
  unfold pctByte
  simp only [List.cons_append, List.nil_append]
  rw [pctDecodeBytes.eq_def]
  dsimp only
  rw [if_neg (by decide), if_pos rfl]
  rw [hexVal_hexDigitChar (b / 16) (by omega), hexVal_hexDigitChar (b % 16) (by omega)]
  dsimp only
  congr 1
  omega

/-- `+` decodes to the space byte. -/
lemma pctDecodeBytes_plus (rest : List Char) :
    pctDecodeBytes ('+' :: rest) = 32 :: pctDecodeBytes rest := by
  rw [pctDecodeBytes.eq_def]
  dsimp only
  rw [if_pos rfl]

/-- A character that is neither `+` nor `%` decodes to its own UTF-8
bytes. -/
lemma pctDecodeBytes_plain (c : Char) (rest : List Char)
    (h1 : c ≠ '+') (h2 : c ≠ '%') :
    pctDecodeBytes (c :: rest) = utf8Bytes c.toNat ++ pctDecodeBytes rest := by
  rw [pctDecodeBytes.eq_def]
  dsimp only
  rw [if_neg h1, if_neg h2]

/-- A percent-escaped byte list decodes to itself. -/
lemma pctDecodeBytes_byteList (bs : List ℕ) (h : ∀ b ∈ bs, b < 256) (rest : List Char) :
    pctDecodeBytes (bs.flatMap pctByte ++ rest) = bs ++ pctDecodeBytes rest := by
  induction bs with
  | nil => simp
  | cons b bs ih =>
    simp only [List.flatMap_cons, List.append_assoc]
    rw [pctDecodeBytes_pctByte b (h b (List.mem_cons_self b bs)) _]
    rw [ih (fun x hx => h x (List.mem_cons_of_mem b hx))]
    rfl

/-- One encoded character decodes to the character's UTF-8 bytes. -/
lemma pctDecodeBytes_encChar (c : Char) (rest : List Char) :
    pctDecodeBytes (encChar c ++ rest) = utf8Bytes c.toNat ++ pctDecodeBytes rest := by
  unfold encChar
  by_cases hsafe : formSafe c = true
  · rw [if_pos hsafe]
    have h1 : c ≠ '+' := by
      intro hc
      rw [hc] at hsafe
      exact absurd hsafe (by decide)
    have h2 : c ≠ '%' := by
      intro hc
      rw [hc] at hsafe
      exact absurd hsafe (by decide)
    simp only [List.cons_append, List.nil_append]
    exact pctDecodeBytes_plain c rest h1 h2
  · rw [if_neg hsafe]
    by_cases hsp : c = ' '
    · rw [if_pos hsp, hsp]
      simp only [List.cons_append, List.nil_append]
      rw [pctDecodeBytes_plus]
      rfl
    · rw [if_neg hsp]
      exact pctDecodeBytes_byteList (utf8Bytes c.toNat)
        (utf8Bytes_bound c.toNat (char_toNat_lt c)) rest


/-- One encoded component followed by a tail decodes to the component and
the decoded tail. -/
lemma formDecode_flatMap (cs : List Char) (rest : List Char) :
    utf8Decode (pctDecodeBytes ((cs.flatMap encChar) ++ rest))
      = cs ++ utf8Decode (pctDecodeBytes rest) := by
  induction cs with
  | nil => simp
  | cons c cs ih =>
    simp only [List.flatMap_cons, List.append_assoc]
    rw [pctDecodeBytes_encChar, utf8_decode_encode, ih]
    rfl

/-- Decoding undoes encoding of one component. -/
lemma formDecode_formEncode (s : String) : formDecode (formEncode s).data = s := by
  unfold formDecode formEncode
  have h := formDecode_flatMap s.data []
  rw [List.append_nil] at h
  show String.mk (utf8Decode (pctDecodeBytes (s.data.flatMap encChar))) = s
  rw [h]
  show String.mk (s.data ++ ([] : List Char)) = s
  rw [List.append_nil]

/-- Uppercase hex digits are neither `&` nor `=`. -/
lemma hexDigitChar_ne (n : ℕ) (h : n < 16) :
    hexDigitChar n ≠ '&' ∧ hexDigitChar n ≠ '=' := by
  interval_cases n <;> exact ⟨by decide, by decide⟩

/-- No character of an encoded component is `&` or `=`. -/
lemma encChar_no_amp_eq (c : Char) : ∀ x ∈ encChar c, x ≠ '&' ∧ x ≠ '=' := by
  unfold encChar
  split_ifs with h1 h2 <;> intro x hx
  · rw [List.mem_singleton] at hx
    subst hx
    constructor <;> intro hc <;> rw [hc] at h1 <;> exact absurd h1 (by decide)
  · rw [List.mem_singleton] at hx
    subst hx
    exact ⟨by decide, by decide⟩
  · rcases List.mem_flatMap.mp hx with ⟨b, hb, hxb⟩
    have hblt : b < 256 := utf8Bytes_bound c.toNat (char_toNat_lt c) b hb
    unfold pctByte at hxb
    simp only [List.mem_cons, List.not_mem_nil, or_false] at hxb
    rcases hxb with hxb | hxb | hxb
    · subst hxb
      exact ⟨by decide, by decide⟩
    · subst hxb
      exact hexDigitChar_ne (b / 16) (by omega)
    · subst hxb
      exact hexDigitChar_ne (b % 16) (by omega)

/-- Splitting after an ampersand-free segment peels it off. -/
lemma splitAmp_append (seg : List Char) (hseg : ∀ x ∈ seg, x ≠ '&') (t : List Char) :
    splitAmp (seg ++ '&' :: t) = seg :: splitAmp t := by
  induction seg with
  | nil =>
    simp only [List.nil_append]
    rw [splitAmp.eq_def]
    dsimp only
    rw [if_pos rfl]
  | cons c seg ih =>
    have hc : c ≠ '&' := hseg c (List.mem_cons_self c seg)
    simp only [List.cons_append]
    rw [splitAmp.eq_def]
    dsimp only
    rw [if_neg hc, ih (fun x hx => hseg x (List.mem_cons_of_mem c hx))]

/-- An ampersand-free tail is one segment. -/
lemma splitAmp_single (seg : List Char) (hseg : ∀ x ∈ seg, x ≠ '&') :
    splitAmp seg = [seg] := by
  induction seg with
  | nil => rfl
  | cons c seg ih =>
    have hc : c ≠ '&' := hseg c (List.mem_cons_self c seg)
    rw [splitAmp.eq_def]
    dsimp only
    rw [if_neg hc, ih (fun x hx => hseg x (List.mem_cons_of_mem c hx))]

/-- Splitting at the first `=` of an equals-free key recovers the pair. -/
lemma splitEq_append (k : List Char) (hk : ∀ x ∈ k, x ≠ '=') (v : List Char) :
    splitEq (k ++ '=' :: v) = (k, v) := by
  induction k with
  | nil =>
    simp only [List.nil_append]
    rw [splitEq.eq_def]
    dsimp only
    rw [if_pos rfl]
  | cons c k ih =>
    have hc : c ≠ '=' := hk c (List.mem_cons_self c k)
    simp only [List.cons_append]
    rw [splitEq.eq_def]
    dsimp only
    rw [if_neg hc, ih (fun x hx => hk x (List.mem_cons_of_mem c hx))]


/-- No character of an encoded component is `&` or `=`, component form. -/
lemma formEncode_no_amp_eq (s : String) :
    ∀ x ∈ (formEncode s).data, x ≠ '&' ∧ x ≠ '=' := by
  intro x hx
  rcases List.mem_flatMap.mp hx with ⟨c, _, hxc⟩
  exact encChar_no_amp_eq c x hxc

/-- Parsing a serialized parameter list recovers it exactly. -/
lemma parseQuery_serializeQuery (ps : List (String × String)) :
    parseQuery (serializeQuery ps) = ps := by
  unfold parseQuery serializeQuery
  induction ps with
  | nil => rfl
  | cons p ps ih =>
    obtain ⟨k, v⟩ := p
    have hseg : ∀ x ∈ (formEncode k).data ++ '=' :: (formEncode v).data, x ≠ '&' := by
      intro x hx
      rcases List.mem_append.mp hx with hx | hx
      · exact (formEncode_no_amp_eq k x hx).1
      · rcases List.mem_cons.mp hx with hx | hx
        · subst hx
          decide
        · exact (formEncode_no_amp_eq v x hx).1
    have hkey : ∀ x ∈ (formEncode k).data, x ≠ '=' :=
      fun x hx => (formEncode_no_amp_eq k x hx).2
    have hsegne : (formEncode k).data ++ '=' :: (formEncode v).data ≠ [] := by
      intro hc
      have hlen := congrArg List.length hc
      simp at hlen
    have hpf : (if ((formEncode k).data ++ '=' :: (formEncode v).data) = [] then none
        else some (formDecode (splitEq ((formEncode k).data ++ '=' :: (formEncode v).data)).1,
          formDecode (splitEq ((formEncode k).data ++ '=' :: (formEncode v).data)).2))
        = some (k, v) := by
      rw [if_neg hsegne, splitEq_append _ hkey]
      dsimp only
      rw [formDecode_formEncode, formDecode_formEncode]
    cases ps with
    | nil =>
      simp only [List.map_cons, List.map_nil]
      rw [show joinAmp [(formEncode k).data ++ '=' :: (formEncode v).data]
          = (formEncode k).data ++ '=' :: (formEncode v).data from rfl]
      rw [splitAmp_single _ hseg, List.filterMap_cons, hpf]
      rfl
    | cons p2 ps2 =>
      simp only [List.map_cons] at ih ⊢
      rw [show joinAmp (((formEncode k).data ++ '=' :: (formEncode v).data)
            :: ((formEncode p2.1).data ++ '=' :: (formEncode p2.2).data)
            :: ps2.map (fun p => (formEncode p.1).data ++ '=' :: (formEncode p.2).data))
          = ((formEncode k).data ++ '=' :: (formEncode v).data) ++ '&'
            :: joinAmp (((formEncode p2.1).data ++ '=' :: (formEncode p2.2).data)
              :: ps2.map (fun p => (formEncode p.1).data ++ '=' :: (formEncode p.2).data))
          from rfl]
      rw [splitAmp_append _ hseg, List.filterMap_cons, hpf, ih]

/-- `get` skips a leading run of entries with other keys. -/
lemma paramsGet_append_not (l1 l2 : List (String × String)) (key : String)
    (h : ∀ p ∈ l1, p.1 ≠ key) :
    paramsGet (l1 ++ l2) key = paramsGet l2 key := by
  induction l1 with
  | nil => rfl
  | cons p l1 ih =>
    unfold paramsGet
    rw [List.cons_append,
      List.find?_cons_of_neg _ (by simpa using h p (List.mem_cons_self p l1))]
    exact ih (fun x hx => h x (List.mem_cons_of_mem p hx))

/-- `get` skips one optional block for another key. -/
lemma paramsGet_skip_block (c : Prop) [Decidable c] (k v key : String) (hk : k ≠ key)
    (l2 : List (String × String)) :
    paramsGet ((if c then [(k, v)] else []) ++ l2) key = paramsGet l2 key := by
  split_ifs with h
  · exact paramsGet_append_not [(k, v)] l2 key (by
      intro p hp
      rw [List.mem_singleton] at hp
      rw [hp]
      exact hk)
  · rw [List.nil_append]

/-- `get` on the key of its own optional block. -/
lemma paramsGet_hit_block (c : Prop) [Decidable c] (v key : String)
    (l2 : List (String × String)) :
    paramsGet ((if c then [(key, v)] else []) ++ l2) key
      = if c then some v else paramsGet l2 key := by
  split_ifs with h
  · unfold paramsGet
    rw [List.cons_append, List.find?_cons_of_pos _ (by simp)]
    rfl
  · rw [List.nil_append]


/-- `get` on a sole optional block with another key. -/
lemma paramsGet_block_ne (c : Prop) [Decidable c] (k v key : String) (hk : k ≠ key) :
    paramsGet (if c then [(k, v)] else []) key = none := by
  split_ifs with h
  · unfold paramsGet
    rw [List.find?_cons_of_neg _ (by simpa using hk)]
    rfl
  · rfl

/-- `get` on a sole optional block with its own key. -/
lemma paramsGet_block_self (c : Prop) [Decidable c] (v key : String) :
    paramsGet (if c then [(key, v)] else []) key = if c then some v else none := by
  split_ifs with h
  · unfold paramsGet
    rw [List.find?_cons_of_pos _ (by simp)]
    rfl
  · rfl

/-- The `q` parameter of the encoded criteria. -/
lemma paramsGet_encode_q (f : Filters) :
    paramsGet (encodeFiltersToQuery f) "q" = if f.q ≠ "" then some f.q else none := by
  unfold encodeFiltersToQuery
  simp only [List.append_assoc]
  rw [paramsGet_hit_block]
  by_cases h : f.q ≠ ""
  · rw [if_pos h, if_pos h]
  · rw [if_neg h, if_neg h, paramsGet_skip_block _ _ _ _ (by decide),
      paramsGet_skip_block _ _ _ _ (by decide), paramsGet_skip_block _ _ _ _ (by decide),
      paramsGet_skip_block _ _ _ _ (by decide), paramsGet_block_ne _ _ _ _ (by decide)]

/-- The `district` parameter of the encoded criteria. -/
lemma paramsGet_encode_district (f : Filters) :
    paramsGet (encodeFiltersToQuery f) "district"
      = if f.district ≠ "All" then some f.district else none := by
  unfold encodeFiltersToQuery
  simp only [List.append_assoc]
  rw [paramsGet_skip_block _ _ _ _ (by decide), paramsGet_hit_block]
  by_cases h : f.district ≠ "All"
  · rw [if_pos h, if_pos h]
  · rw [if_neg h, if_neg h, paramsGet_skip_block _ _ _ _ (by decide),
      paramsGet_skip_block _ _ _ _ (by decide), paramsGet_skip_block _ _ _ _ (by decide),
      paramsGet_block_ne _ _ _ _ (by decide)]

/-- The `cadaster` parameter of the encoded criteria. -/
lemma paramsGet_encode_cadaster (f : Filters) :
    paramsGet (encodeFiltersToQuery f) "cadaster"
      = if f.cadaster ≠ "All" then some f.cadaster else none := by
  unfold encodeFiltersToQuery
  simp only [List.append_assoc]
  rw [paramsGet_skip_block _ _ _ _ (by decide), paramsGet_skip_block _ _ _ _ (by decide),
    paramsGet_hit_block]
  by_cases h : f.cadaster ≠ "All"
  · rw [if_pos h, if_pos h]
  · rw [if_neg h, if_neg h, paramsGet_skip_block _ _ _ _ (by decide),
      paramsGet_skip_block _ _ _ _ (by decide), paramsGet_block_ne _ _ _ _ (by decide)]

/-- The `siteStatus` parameter of the encoded criteria. -/
lemma paramsGet_encode_siteStatus (f : Filters) :
    paramsGet (encodeFiltersToQuery f) "siteStatus"
      = if f.siteStatus ≠ "All" then some f.siteStatus else none := by
  unfold encodeFiltersToQuery
  simp only [List.append_assoc]
  rw [paramsGet_skip_block _ _ _ _ (by decide), paramsGet_skip_block _ _ _ _ (by decide),
    paramsGet_skip_block _ _ _ _ (by decide), paramsGet_hit_block]
  by_cases h : f.siteStatus ≠ "All"
  · rw [if_pos h, if_pos h]
  · rw [if_neg h, if_neg h, paramsGet_skip_block _ _ _ _ (by decide),
      paramsGet_block_ne _ _ _ _ (by decide)]

/-- The `phoneStatus` parameter of the encoded criteria. -/
lemma paramsGet_encode_phoneStatus (f : Filters) :
    paramsGet (encodeFiltersToQuery f) "phoneStatus"
      = if f.phoneStatus ≠ "All" then some f.phoneStatus else none := by
  unfold encodeFiltersToQuery
  simp only [List.append_assoc]
  rw [paramsGet_skip_block _ _ _ _ (by decide), paramsGet_skip_block _ _ _ _ (by decide),
    paramsGet_skip_block _ _ _ _ (by decide), paramsGet_skip_block _ _ _ _ (by decide),
    paramsGet_hit_block]
  by_cases h : f.phoneStatus ≠ "All"
  · rw [if_pos h, if_pos h]
  · rw [if_neg h, if_neg h, paramsGet_block_ne _ _ _ _ (by decide)]

/-- The `qc` parameter of the encoded criteria. -/
lemma paramsGet_encode_qc (f : Filters) :
    paramsGet (encodeFiltersToQuery f) "qc"
      = if f.qc ≠ "All" then some f.qc else none := by
  unfold encodeFiltersToQuery
  simp only [List.append_assoc]
  rw [paramsGet_skip_block _ _ _ _ (by decide), paramsGet_skip_block _ _ _ _ (by decide),
    paramsGet_skip_block _ _ _ _ (by decide), paramsGet_skip_block _ _ _ _ (by decide),
    paramsGet_skip_block _ _ _ _ (by decide), paramsGet_block_self]

/-- `jsTrim` of the empty string. -/
lemma jsTrim_empty : jsTrim "" = "" := rfl


/-- C9: encoding the criteria to a query string and decoding that string
back yields the original criteria, for every criteria value whose free
text is trimmed and whose selector values are non-empty; defaults
(`"All"`, empty text) are omitted from the query and restored on decode. -/
theorem filters_query_roundtrip (f : Filters)
    (hq : jsTrim f.q = f.q) (hd : f.district ≠ "") (hc : f.cadaster ≠ "")
    (hs : f.siteStatus ≠ "") (hp : f.phoneStatus ≠ "") (hqc : f.qc ≠ "") :
    applyQueryToFilters (parseQuery (serializeQuery (encodeFiltersToQuery f))) = f := by
  rw [parseQuery_serializeQuery]
  unfold applyQueryToFilters truthyParam
  rw [paramsGet_encode_q, paramsGet_encode_district, paramsGet_encode_cadaster,
    paramsGet_encode_siteStatus, paramsGet_encode_phoneStatus, paramsGet_encode_qc]
  obtain ⟨q, d, cad, st, ph, qc⟩ := f
  simp only at hq hd hc hs hp hqc ⊢
  rw [Filters.mk.injEq]
  refine ⟨?_, ?_, ?_, ?_, ?_, ?_⟩
  · by_cases h0 : q = ""
    · simp [h0, jsTrim_empty]
    · simp [h0, hq]
  · by_cases h0 : d = "All"
    · simp [h0]
    · simp [h0, hd]
  · by_cases h0 : cad = "All"
    · simp [h0]
    · simp [h0, hc]
  · by_cases h0 : st = "All"
    · simp [h0]
    · simp [h0, hs]
  · by_cases h0 : ph = "All"
    · simp [h0]
    · simp [h0, hp]
  · by_cases h0 : qc = "All"
    · simp [h0]
    · simp [h0, hqc]

/-- Witness for C9 at criteria whose free text holds reserved URL
characters (`&`, `=`, `?`, `+`, `%`, space) and a non-ASCII letter. -/
theorem filters_query_roundtrip_witness :
    applyQueryToFilters (parseQuery (serializeQuery
      (encodeFiltersToQuery roundTripFilters))) = roundTripFilters :=
  filters_query_roundtrip roundTripFilters (by decide) (by decide) (by decide)
    (by decide) (by decide) (by decide)


/-- A match attempt fails on a non-digit head. -/
lemma tryN1_no_digit_head (c : Char) (cs : List Char) (h : c.isDigit = false) :
    tryN1 (c :: cs) = none := by
  have ht : takeDigs (c :: cs) = ([], c :: cs) := by
    rw [takeDigs.eq_def]
    dsimp only
    rw [if_neg (by simp [h])]
  unfold tryN1
  rw [ht]
  rfl

/-- The DMS search fails on digit-free text. -/
lemma dmsSearch_no_digit (cs : List Char) (h : ∀ c ∈ cs, c.isDigit = false) :
    dmsSearch cs = none := by
  induction cs with
  | nil => rfl
  | cons c cs ih =>
    rw [dmsSearch.eq_def]
    dsimp only
    rw [tryN1_no_digit_head c cs (h c (List.mem_cons_self c cs))]
    exact ih (fun x hx => h x (List.mem_cons_of_mem c hx))

/-- Cleaning removes every character outside the numeric set. -/
lemma cleanLoose_nil (cs : List Char)
    (h : ∀ c ∈ cs, c.isDigit = false ∧ c ≠ '.' ∧ c ≠ '+' ∧ c ≠ '-' ∧ c ≠ ',') :
    cleanLoose cs = [] := by
  unfold cleanLoose
  have hf : (cs.map (fun c => if c = ',' then '.' else c)).filter
      (fun c => c.isDigit ∨ c = '.' ∨ c = '+' ∨ c = '-') = [] := by
    rw [List.filter_eq_nil_iff]
    intro a ha
    rcases List.mem_map.mp ha with ⟨c, hc, hac⟩
    obtain ⟨h1, h2, h3, h4, h5⟩ := h c hc
    rw [if_neg h5] at hac
    subst hac
    simp [h1, h2, h3, h4]
  rw [hf]
  rfl


section

attribute [local semireducible] Rat.add Rat.mul Rat.sub Rat.inv

/-- Reduction of `parseCoordinate` on a string value. -/
lemma parseCoordinate_str (s : String) :
    parseCoordinate (.str s) =
      (if jsTrim s = "" then none
       else
        match dmsSearch (jsTrim s).data with
        | some q => some q
        | none => jsStringToNum (String.mk (cleanLoose (jsTrim s).data))) := rfl

/-- Counterexample to C3 as stated: the digit-free text `"abc"` is not
parseable as any coordinate, yet the parser returns `0` (a finite value
that then enters scoring and the index) rather than NaN, because stripping
non-numeric characters leaves `""` and JavaScript evaluates
`Number("")` to `0`. -/
theorem parseCoordinate_digitfree_counterexample :
    ("abc".data.all (fun c => !c.isDigit)) = true ∧
    parseCoordinate (Value.str "abc") ≠ none ∧
    parseCoordinate (Value.str "abc") = some 0 :=
  ⟨by decide, by decide, by decide⟩

/-- C3 (amended): the parser returns a plain finite number unchanged;
parses degrees-minutes-seconds text, negating on hemisphere `S`/`W`;
parses loose decimals with comma normalization; empty or blank input gives
NaN; text whose trimmed form has no digits (so no DMS match) and none of
`.`/`+`/`-`/`,` cleans to the empty string and yields `0`, not NaN; NaN
arises only when the cleaned text is not a valid JavaScript numeral (as
for `"1-2"`); and the function is total. -/
theorem parseCoordinate_amended :
    (∀ q : ℚ, parseCoordinate (.num q) = some q) ∧
    parseCoordinate (.str "33 54 12.3 N") = some (mkRat 406841 12000) ∧
    parseCoordinate (.str "35 52 10 W") = some (-(mkRat 12913 360)) ∧
    parseCoordinate (.str "33,875") = some (mkRat 271 8) ∧
    (∀ s : String, jsTrim s = "" → parseCoordinate (.str s) = none) ∧
    (∀ s : String, jsTrim s ≠ "" →
      (∀ c ∈ (jsTrim s).data, c.isDigit = false ∧ c ≠ '.' ∧ c ≠ '+' ∧ c ≠ '-' ∧ c ≠ ',') →
      parseCoordinate (.str s) = some 0) ∧
    parseCoordinate (.str "1-2") = none ∧
    parseCoordinate Value.empty = none := by
  refine ⟨fun q => rfl, by decide, by decide, by decide, ?_, ?_, by decide, rfl⟩
  · intro s hs
    rw [parseCoordinate_str, if_pos hs]
  · intro s hs hchars
    rw [parseCoordinate_str, if_neg hs,
      dmsSearch_no_digit _ (fun c hc => (hchars c hc).1),
      cleanLoose_nil _ hchars]
    rfl

/-- Witness for the hypothesis-bearing clauses of the amended C3 theorem:
blank text gives NaN, digit-free text gives `0`. -/
theorem parseCoordinate_amended_witness :
    parseCoordinate (Value.str "   ") = none ∧
    parseCoordinate (Value.str "xyz@#") = some 0 :=
  ⟨parseCoordinate_amended.2.2.2.2.1 "   " (by decide),
   parseCoordinate_amended.2.2.2.2.2.1 "xyz@#" (by decide) (by decide)⟩

end


/-- The selection fold starting from a seed returns an element at least as
high-scoring as the seed and every list element. -/
lemma foldl_best_some {α : Type} (f : α → ℚ) :
    ∀ (l : List α) (b : α),
      ∃ c, l.foldl (fun acc x =>
          match acc with
          | none => some x
          | some a => if f a < f x then some x else some a) (some b) = some c
        ∧ (c = b ∨ c ∈ l) ∧ f b ≤ f c ∧ ∀ x ∈ l, f x ≤ f c := by
  intro l
  induction l with
  | nil => exact fun b => ⟨b, rfl, Or.inl rfl, le_refl _, by simp⟩
  | cons x l ih =>
    intro b
    simp only [List.foldl_cons]
    by_cases hfx : f b < f x
    · obtain ⟨c, hc, hmem, hge, hall⟩ := ih x
      refine ⟨c, by rw [if_pos hfx] at *; exact hc, ?_, le_of_lt (lt_of_lt_of_le hfx hge), ?_⟩
      · rcases hmem with h | h
        · exact Or.inr (h ▸ List.mem_cons_self x l)
        · exact Or.inr (List.mem_cons_of_mem x h)
      · intro y hy
        rcases List.mem_cons.mp hy with hy | hy
        · exact hy ▸ hge
        · exact hall y hy
    · obtain ⟨c, hc, hmem, hge, hall⟩ := ih b
      refine ⟨c, by rw [if_neg hfx] at *; exact hc,
        hmem.imp id (List.mem_cons_of_mem x), hge, ?_⟩
      intro y hy
      rcases List.mem_cons.mp hy with hy | hy
      · exact hy ▸ le_trans (le_of_not_lt hfx) hge
      · exact hall y hy

/-- A selected element is a member attaining the maximal score. -/
lemma bestKeyBy_spec {α : Type} (f : α → ℚ) (l : List α) (c : α)
    (h : bestKeyBy f l = some c) : c ∈ l ∧ ∀ x ∈ l, f x ≤ f c := by
  cases l with
  | nil => cases h
  | cons a l =>
    unfold bestKeyBy at h
    rw [List.foldl_cons] at h
    obtain ⟨c2, hc2, hmem, hge, hall⟩ := foldl_best_some f l a
    rw [hc2] at h
    obtain rfl : c2 = c := by injection h
    refine ⟨?_, ?_⟩
    · rcases hmem with h2 | h2
      · exact h2 ▸ List.mem_cons_self a l
      · exact List.mem_cons_of_mem a h2
    · intro x hx
      rcases List.mem_cons.mp hx with hx | hx
      · exact hx ▸ hge
      · exact hall x hx

/-- The selection fold fails only on the empty list. -/
lemma bestKeyBy_none {α : Type} (f : α → ℚ) (l : List α)
    (h : bestKeyBy f l = none) : l = [] := by
  cases l with
  | nil => rfl
  | cons a l =>
    unfold bestKeyBy at h
    rw [List.foldl_cons] at h
    obtain ⟨c2, hc2, _, _, _⟩ := foldl_best_some f l a
    rw [hc2] at h
    cases h

/-- A thresholded best element is a member above the threshold attaining
the maximal score. -/
lemma bestAbove_some {α : Type} (thr : ℚ) (f : α → ℚ) (l : List α) (c : α)
    (h : bestAbove thr f l = some c) :
    c ∈ l ∧ thr ≤ f c ∧ ∀ x ∈ l, f x ≤ f c := by
  unfold bestAbove at h
  cases hb : bestKeyBy f l with
  | none => rw [hb] at h; cases h
  | some a =>
    rw [hb] at h
    dsimp only at h
    obtain ⟨hmem, hall⟩ := bestKeyBy_spec f l a hb
    by_cases hthr : thr ≤ f a
    · rw [if_pos hthr] at h
      obtain rfl : a = c := by injection h
      exact ⟨hmem, hthr, hall⟩
    · rw [if_neg hthr] at h
      cases h

/-- A failed thresholded selection means every element is below the
threshold. -/
lemma bestAbove_none {α : Type} (thr : ℚ) (f : α → ℚ) (l : List α)
    (h : bestAbove thr f l = none) : ∀ x ∈ l, f x < thr := by
  unfold bestAbove at h
  cases hb : bestKeyBy f l with
  | none =>
    rw [bestKeyBy_none f l hb]
    simp
  | some a =>
    rw [hb] at h
    dsimp only at h
    by_cases hthr : thr ≤ f a
    · rw [if_pos hthr] at h
      cases h
    · rw [if_neg hthr] at h
      intro x hx
      exact lt_of_le_of_lt ((bestKeyBy_spec f l a hb).2 x hx) (lt_of_not_le hthr)

/-- A named pick is a candidate above `0.25` attaining the maximal
candidate score. -/
lemma pickBestNamed_some (f : ScoredKey → ℚ) (scored : List ScoredKey)
    (arr : List String) (k : String) (h : pickBestNamed f scored arr = some k) :
    k ∈ arr ∧ mkRat 25 100 ≤ namedScore f scored k ∧
      ∀ x ∈ arr, namedScore f scored x ≤ namedScore f scored k := by
  unfold pickBestNamed at h
  cases hb : bestKeyBy (namedScore f scored) arr with
  | none => rw [hb] at h; cases h
  | some a =>
    rw [hb] at h
    dsimp only at h
    obtain ⟨hmem, hall⟩ := bestKeyBy_spec (namedScore f scored) arr a hb
    by_cases hthr : mkRat 25 100 ≤ namedScore f scored a
    · rw [if_pos hthr] at h
      obtain rfl : a = k := by injection h
      exact ⟨hmem, hthr, hall⟩
    · rw [if_neg hthr] at h
      cases h

/-- A failed named pick means every candidate scores below `0.25`. -/
lemma pickBestNamed_none (f : ScoredKey → ℚ) (scored : List ScoredKey)
    (arr : List String) (h : pickBestNamed f scored arr = none) :
    ∀ x ∈ arr, namedScore f scored x < mkRat 25 100 := by
  unfold pickBestNamed at h
  cases hb : bestKeyBy (namedScore f scored) arr with
  | none =>
    rw [bestKeyBy_none _ arr hb]
    simp
  | some a =>
    rw [hb] at h
    dsimp only at h
    by_cases hthr : mkRat 25 100 ≤ namedScore f scored a
    · rw [if_pos hthr] at h
      cases h
    · rw [if_neg hthr] at h
      intro x hx
      exact lt_of_le_of_lt ((bestKeyBy_spec _ arr a hb).2 x hx) (lt_of_not_le hthr)


/-- JavaScript `||` keeps a non-empty first string. -/
lemma jsOrStr_some_ne (s : String) (b : Option String) (h : s ≠ "") :
    jsOrStr (some s) b = some s := by
  unfold jsOrStr
  dsimp only
  rw [if_neg h]

/-- JavaScript `||` falls through an absent first value. -/
lemma jsOrStr_none (b : Option String) : jsOrStr none b = b := rfl

/-- One axis of the inference: the name-matched pick when it reaches
`0.25`, else the best allowed scored column when it reaches `0.65`, else
nothing. -/
lemma axis_characterization (scored : List ScoredKey) (named : List String)
    (f : ScoredKey → ℚ) (allowed : List ScoredKey)
    (hnamed : ∀ k ∈ named, k ≠ "")
    (hallowed : ∀ s ∈ allowed, s.key ≠ "") :
    specAxis (namedScore f scored) named f allowed
      (jsOrStr (pickBestNamed f scored named)
        (jsOrStr ((bestAbove (mkRat 65 100) f allowed).map (fun s => s.key)) none)) := by
  constructor
  · intro k hres
    cases hp : pickBestNamed f scored named with
    | some p =>
      obtain ⟨hmem, hthr, hmax⟩ := pickBestNamed_some f scored named p hp
      rw [hp, jsOrStr_some_ne p _ (hnamed p hmem)] at hres
      obtain rfl : p = k := by injection hres
      exact Or.inl ⟨hmem, hthr, hmax⟩
    | none =>
      rw [hp, jsOrStr_none] at hres
      have hfail := pickBestNamed_none f scored named hp
      cases hb : bestAbove (mkRat 65 100) f allowed with
      | some a =>
        obtain ⟨ha, hthr, hmax⟩ := bestAbove_some _ f allowed a hb
        rw [hb] at hres
        rw [Option.map_some'] at hres
        rw [jsOrStr_some_ne _ _ (hallowed a ha)] at hres
        obtain rfl : a.key = k := by injection hres
        exact Or.inr ⟨hfail, a, ha, rfl, hthr, hmax⟩
      | none =>
        rw [hb] at hres
        cases hres
  · intro hres
    cases hp : pickBestNamed f scored named with
    | some p =>
      obtain ⟨hmem, _, _⟩ := pickBestNamed_some f scored named p hp
      rw [hp, jsOrStr_some_ne p _ (hnamed p hmem)] at hres
      cases hres
    | none =>
      refine ⟨pickBestNamed_none f scored named hp, ?_⟩
      rw [hp, jsOrStr_none] at hres
      cases hb : bestAbove (mkRat 65 100) f allowed with
      | some a =>
        obtain ⟨ha, _, _⟩ := bestAbove_some _ f allowed a hb
        rw [hb] at hres
        rw [Option.map_some'] at hres
        rw [jsOrStr_some_ne _ _ (hallowed a ha)] at hres
        cases hres
      | none =>
        exact bestAbove_none _ f allowed hb

/-- Every scored column carries a key of the first row. -/
lemma scoredKeys_key_mem (rows : List Row) (keys : List String) (s : ScoredKey)
    (hs : s ∈ scoredKeys rows keys) : s.key ∈ keys := by
  unfold scoredKeys at hs
  obtain ⟨k, hkmem, rfl⟩ := List.mem_map.mp hs
  exact hkmem


/-- C1 (counterexample): on a single-column row set whose column name
matches both the latitude and the longitude name pattern and whose value
lies in both geographic bands, the inference selects that same column for
latitude and for longitude — the longitude choice does not exclude the
column chosen for latitude. -/
theorem inferLatLngKeys_shared_column_counterexample :
    (inferLatLngKeys sharedNameRows).latKey = some "lat lon" ∧
    (inferLatLngKeys sharedNameRows).lngKey = some "lat lon" := by
  refine ⟨by decide, by decide⟩

/-- C1 (amended): for a non-empty row set with non-empty column names, each
axis picks the best-scoring name-matched candidate when its band score is
at least 0.25, else the best-scoring allowed column when its band score is
at least 0.65, else none; for latitude every column is allowed, while for
longitude the allowed columns exclude the key of the best statistically
scored latitude column (the `0.65`-thresholded best, not necessarily the
chosen latitude column), so a column can be chosen for both axes. -/
theorem inferLatLngKeys_amended (r0 : Row) (rest : List Row)
    (hk : ∀ k ∈ r0.map Prod.fst, k ≠ "") :
    specAxis
      (namedScore (fun s => s.latScore) (scoredKeys (r0 :: rest) (r0.map Prod.fst)))
      (nameLatKeys (r0.map Prod.fst)) (fun s => s.latScore)
      (scoredKeys (r0 :: rest) (r0.map Prod.fst))
      ((inferLatLngKeys (r0 :: rest)).latKey) ∧
    specAxis
      (namedScore (fun s => s.lngScore) (scoredKeys (r0 :: rest) (r0.map Prod.fst)))
      (nameLngKeys (r0.map Prod.fst)) (fun s => s.lngScore)
      ((scoredKeys (r0 :: rest) (r0.map Prod.fst)).filter (fun x =>
        match bestAbove (mkRat 65 100) (fun s => s.latScore)
            (scoredKeys (r0 :: rest) (r0.map Prod.fst)) with
        | some a => x.key ≠ a.key
        | none => true))
      ((inferLatLngKeys (r0 :: rest)).lngKey) := by
  have hsck : ∀ s ∈ scoredKeys (r0 :: rest) (r0.map Prod.fst), s.key ≠ "" :=
    fun s hs => hk s.key (scoredKeys_key_mem (r0 :: rest) (r0.map Prod.fst) s hs)
  constructor
  · exact axis_characterization (scoredKeys (r0 :: rest) (r0.map Prod.fst))
      (nameLatKeys (r0.map Prod.fst)) (fun s => s.latScore)
      (scoredKeys (r0 :: rest) (r0.map Prod.fst))
      (fun k hkm => hk k (List.mem_of_mem_filter hkm)) hsck
  · exact axis_characterization (scoredKeys (r0 :: rest) (r0.map Prod.fst))
      (nameLngKeys (r0.map Prod.fst)) (fun s => s.lngScore)
      ((scoredKeys (r0 :: rest) (r0.map Prod.fst)).filter (fun x =>
        match bestAbove (mkRat 65 100) (fun s => s.latScore)
            (scoredKeys (r0 :: rest) (r0.map Prod.fst)) with
        | some a => x.key ≠ a.key
        | none => true))
      (fun k hkm => hk k (List.mem_of_mem_filter hkm))
      (fun s hs => hsck s (List.mem_of_mem_filter hs))

/-- C1 (witness): the amended characterization at a concrete two-column
row. -/
theorem inferLatLngKeys_amended_witness :
    specAxis
      (namedScore (fun s => s.latScore) (scoredKeys [latlngRow] (latlngRow.map Prod.fst)))
      (nameLatKeys (latlngRow.map Prod.fst)) (fun s => s.latScore)
      (scoredKeys [latlngRow] (latlngRow.map Prod.fst))
      ((inferLatLngKeys [latlngRow]).latKey) ∧
    specAxis
      (namedScore (fun s => s.lngScore) (scoredKeys [latlngRow] (latlngRow.map Prod.fst)))
      (nameLngKeys (latlngRow.map Prod.fst)) (fun s => s.lngScore)
      ((scoredKeys [latlngRow] (latlngRow.map Prod.fst)).filter (fun x =>
        match bestAbove (mkRat 65 100) (fun s => s.latScore)
            (scoredKeys [latlngRow] (latlngRow.map Prod.fst)) with
        | some a => x.key ≠ a.key
        | none => true))
      ((inferLatLngKeys [latlngRow]).lngKey) :=
  inferLatLngKeys_amended latlngRow [] (by decide)

end IAMP
